import Mathlib

/-!
# Render-task dependency graph (`src/gpu/GrRenderTask.cpp`)

A shallow embedding of the dependency bookkeeping of `GrRenderTask`.

* Objects live in a heap: a task pointer is a natural number, and the heap maps every
  pointer to the fields of the object stored there.  The same holds for surface proxies.
* `SkASSERT` is modelled as it behaves in a debug build: a failing assertion stops the
  call.  An `Outcome` therefore is either `done s` (the call returned, leaving heap `s`) or
  `fault s` (an assertion failed; `s` is the heap at that very moment).
* The 32-bit identifier counter is a natural number reduced modulo `2 ^ 32`.
-/

namespace Skia

/-- Address of a `GrRenderTask` object. -/
abbrev TaskPtr := Nat

/-- Address of a `GrSurfaceProxy` object. -/
abbrev ProxyPtr := Nat

/-- Modelled from the spec: `GrCaps` is declared outside `src/`; the render task only hands
it on to `makeClosed`, and never looks inside it. -/
abbrev GrCaps := Unit

/-- The texture view of a proxy, as far as `GrRenderTask.cpp` looks at it:
`texPriv().isDeferred()`. -/
structure GrTextureProxy where
  isDeferred : Bool := false
deriving DecidableEq, Repr

/-- The fields and queries of a `GrSurfaceProxy` that `GrRenderTask.cpp` uses. -/
structure GrSurfaceProxy where
  /-- The value behind `getLastRenderTask()` / `setLastRenderTask()`; `none` is `nullptr`. -/
  fLastRenderTask : Option TaskPtr := none
  /-- The value of `asTextureProxy()`; `none` is `nullptr`. -/
  asTextureProxy : Option GrTextureProxy := none
  /-- The value of `isInstantiated()`. -/
  isInstantiated : Bool := false
  /-- The value of `asRenderTargetProxy()`, reduced to its `numStencilSamples()`. -/
  asRenderTargetProxy : Option Int := none
  /-- The value of `peekRenderTarget()`, reduced to its stencil attachment (`none` when
  there is no attachment, else the attachment's `numSamples()`). -/
  peekRenderTarget : Option (Option Int) := none
  /-- The value of `peekSurface()->wasDestroyed()`. -/
  wasDestroyed : Bool := false
deriving DecidableEq, Repr

/-- The data members of a `GrRenderTask`. -/
structure GrRenderTask where
  fTarget : Option ProxyPtr := none
  fUniqueID : Nat := 0
  fFlags : Nat := 0
  fDependencies : List TaskPtr := []
  fDependents : List TaskPtr := []
  fDeferredProxies : List ProxyPtr := []
deriving DecidableEq, Repr

/-- The heap: every task object, every proxy object, and the static counter `nextID` of
`CreateUniqueID`. -/
structure Heap where
  tasks : TaskPtr → GrRenderTask
  proxies : ProxyPtr → GrSurfaceProxy
  nextID : Nat := 1

/-- Result of a call that contains `SkASSERT`s. -/
inductive Outcome where
  /-- The call returned; the heap is now `s`. -/
  | done (s : Heap)
  /-- An assertion failed; `s` is the heap when it failed. -/
  | fault (s : Heap)

/-- The call returned normally. -/
def Outcome.isDone : Outcome → Bool
  | .done _ => true
  | .fault _ => false

/-- The heap an outcome carries. -/
def Outcome.heap : Outcome → Heap
  | .done s => s
  | .fault s => s

/-- Store `v` at task address `t`. -/
def Heap.setTask (s : Heap) (t : TaskPtr) (v : GrRenderTask) : Heap :=
  { s with tasks := fun x => if x = t then v else s.tasks x }

/-- Store `v` at proxy address `p`. -/
def Heap.setProxy (s : Heap) (p : ProxyPtr) (v : GrSurfaceProxy) : Heap :=
  { s with proxies := fun x => if x = p then v else s.proxies x }

/-- The reserved identifier `SK_InvalidUniqueID`. -/
def SK_InvalidUniqueID : Nat := 0

/-- Modelled from the spec: `GrRenderTask.h` is not under `src/`; the closed flag is one bit
of the flags bitset `fFlags`. -/
def kClosed_Flag : Nat := 0x01

/-- The search loop shared by `dependsOn` and `isDependedent`: walk the array from index 0
and return `true` at the first entry equal to `x`. -/
def findLoop (x : TaskPtr) : List TaskPtr → Bool
  | [] => false
  | d :: rest => if d = x then true else findLoop x rest

/-- `GrRenderTask::dependsOn` (lines 97-105). -/
def GrRenderTask.dependsOn (s : Heap) (this dependedOn : TaskPtr) : Bool :=
  findLoop dependedOn (s.tasks this).fDependencies

/-- `GrRenderTask::isDependedent` (lines 113-121). -/
def GrRenderTask.isDependedent (s : Heap) (this dependent : TaskPtr) : Bool :=
  findLoop dependent (s.tasks this).fDependents

/-- `GrRenderTask::addDependent` (lines 108-110). -/
def GrRenderTask.addDependent (s : Heap) (this dependent : TaskPtr) : Heap :=
  s.setTask this
    { s.tasks this with fDependents := (s.tasks this).fDependents ++ [dependent] }

/-- The loop of `GrRenderTask::validate` (lines 126-128): `true` when no assertion fails. -/
def validateLoop (s : Heap) (this : TaskPtr) : List TaskPtr → Bool
  | [] => true
  | d :: rest => if GrRenderTask.isDependedent s d this then validateLoop s this rest else false

/-- `GrRenderTask::validate` (lines 123-129): `true` when no assertion fails. -/
def GrRenderTask.validate (s : Heap) (this : TaskPtr) : Bool :=
  validateLoop s this (s.tasks this).fDependencies

/-- Lines 65-66 of `GrRenderTask::addDependency(GrRenderTask*)`: the two `push_back`s. -/
def GrRenderTask.addDependency.link (s : Heap) (this dependedOn : TaskPtr) : Heap :=
  let s1 := s.setTask this
    { s.tasks this with fDependencies := (s.tasks this).fDependencies ++ [dependedOn] }
  GrRenderTask.addDependent s1 dependedOn this

/-- `GrRenderTask::addDependency(GrRenderTask*)` (lines 58-69). -/
def GrRenderTask.addDependency (s : Heap) (this dependedOn : TaskPtr) : Outcome :=
  if GrRenderTask.dependsOn s dependedOn this then
    Outcome.fault s
  else if GrRenderTask.dependsOn s this dependedOn then
    Outcome.done s
  else
    let s2 := GrRenderTask.addDependency.link s this dependedOn
    if GrRenderTask.validate s2 this then Outcome.done s2 else Outcome.fault s2

/-- Modelled from the spec: `isClosed` is defined in `GrRenderTask.h`, which is not under
`src/`; the task is closed when the closed flag is set. -/
def GrRenderTask.isClosed (s : Heap) (this : TaskPtr) : Bool :=
  ((s.tasks this).fFlags &&& kClosed_Flag) != 0

/-- Modelled from the spec: `makeClosed` is defined in `GrRenderTask.h`, which is not under
`src/`; closing a task sets its closed flag, and closing a closed task changes nothing. -/
def GrRenderTask.makeClosed (s : Heap) (this : TaskPtr) (_caps : GrCaps) : Heap :=
  if GrRenderTask.isClosed s this then s
  else s.setTask this { s.tasks this with fFlags := (s.tasks this).fFlags ||| kClosed_Flag }

/-- Lines 73-88 of `GrRenderTask::addDependency(GrSurfaceProxy*, const GrCaps&)`: the
conversion of the proxy's last writer into a task dependency. -/
def GrRenderTask.addDependencyProxy.convert (s : Heap) (this : TaskPtr) (dependedOn : ProxyPtr)
    (caps : GrCaps) : Outcome :=
  match (s.proxies dependedOn).fLastRenderTask with
  | none => Outcome.done s
  | some dependedOnTask =>
    if GrRenderTask.isClosed s this then
      Outcome.fault s
    else if dependedOnTask = this then
      Outcome.done s
    else
      match GrRenderTask.addDependency s this dependedOnTask with
      | Outcome.fault s1 => Outcome.fault s1
      | Outcome.done s1 => Outcome.done (GrRenderTask.makeClosed s1 dependedOnTask caps)

/-- Lines 90-94 of `GrRenderTask::addDependency(GrSurfaceProxy*, const GrCaps&)`: record a
deferred texture proxy. -/
def GrRenderTask.addDependencyProxy.record (s : Heap) (this : TaskPtr) (dependedOn : ProxyPtr) :
    Heap :=
  match (s.proxies dependedOn).asTextureProxy with
  | none => s
  | some textureProxy =>
    if textureProxy.isDeferred then
      s.setTask this
        { s.tasks this with fDeferredProxies := (s.tasks this).fDeferredProxies ++ [dependedOn] }
    else s

/-- `GrRenderTask::addDependency(GrSurfaceProxy*, const GrCaps&)` (lines 72-95). -/
def GrRenderTask.addDependencyProxy (s : Heap) (this : TaskPtr) (dependedOn : ProxyPtr)
    (caps : GrCaps) : Outcome :=
  match GrRenderTask.addDependencyProxy.convert s this dependedOn caps with
  | Outcome.fault s1 => Outcome.fault s1
  | Outcome.done s1 => Outcome.done (GrRenderTask.addDependencyProxy.record s1 this dependedOn)

/-- `GrRenderTask::CreateUniqueID` (lines 14-21), as a function of the counter: the returned
identifier and the new value of the counter.  Each round of the do-while loop reads the
counter as `id` and stores `id + 1` (modulo `2 ^ 32`); the loop repeats while `id` is
`SK_InvalidUniqueID`. -/
def GrRenderTask.CreateUniqueID (nextID : Nat) : Nat × Nat :=
  if h : nextID = SK_InvalidUniqueID then
    GrRenderTask.CreateUniqueID ((nextID + 1) % 2 ^ 32)
  else
    (nextID, (nextID + 1) % 2 ^ 32)
termination_by (if nextID = 0 then 1 else 0)
decreasing_by
  have h1 : nextID = 0 := h
  subst h1
  decide

/-- The constructor `GrRenderTask::GrRenderTask` (lines 23-28); `this` is the address of the
new object. -/
def GrRenderTask.create (s : Heap) (this : TaskPtr) (target : ProxyPtr) : Heap :=
  let r := GrRenderTask.CreateUniqueID s.nextID
  let s1 : Heap :=
    { tasks := fun x =>
        if x = this then { fTarget := some target, fUniqueID := r.1, fFlags := 0 }
        else s.tasks x
      proxies := s.proxies
      nextID := r.2 }
  s1.setProxy target { s1.proxies target with fLastRenderTask := some this }

/-- A heap in which no task has a dependency or a dependent yet. -/
def Heap.EmptyLists (s : Heap) : Prop :=
  ∀ t, (s.tasks t).fDependencies = [] ∧ (s.tasks t).fDependents = []

/-- Heaps that can be reached from tasks with empty lists by calls of the two
`addDependency` overloads that return. -/
inductive Reachable : Heap → Prop where
  | start (s : Heap) (h : s.EmptyLists) : Reachable s
  | task (s s1 : Heap) (a b : TaskPtr) (hs : Reachable s)
      (h : GrRenderTask.addDependency s a b = Outcome.done s1) : Reachable s1
  | proxy (s s1 : Heap) (t : TaskPtr) (p : ProxyPtr) (caps : GrCaps) (hs : Reachable s)
      (h : GrRenderTask.addDependencyProxy s t p caps = Outcome.done s1) : Reachable s1

/-- One dependency edge: `y` is in the dependency list of `x`. -/
def Edge (s : Heap) (x y : TaskPtr) : Prop :=
  y ∈ (s.tasks x).fDependencies

/-- Task `x` depends on `y` through a chain of one or more dependency edges. -/
def DependsTransitively (s : Heap) (x y : TaskPtr) : Prop :=
  Relation.TransGen (Edge s) x y

/-- A heap of fresh objects: no lists, no flags, no last writers. -/
def Heap.fresh : Heap :=
  { tasks := fun _ => {}, proxies := fun _ => {} }

/-- Two heaps whose tasks have the same dependency and dependents lists. -/
def SameLists (s s1 : Heap) : Prop :=
  ∀ x, (s1.tasks x).fDependencies = (s.tasks x).fDependencies ∧
    (s1.tasks x).fDependents = (s.tasks x).fDependents

/-- The dependents lists are the inverse of the dependency lists, with multiplicity. -/
def Inverse (s : Heap) : Prop :=
  ∀ x y, List.count y (s.tasks x).fDependencies = List.count x (s.tasks y).fDependents

/-! ### Destruction, closing of dependents, instantiation, preparation -/

/-- The destructor `GrRenderTask::~GrRenderTask` (lines 30-35). -/
def GrRenderTask.destroy (s : Heap) (this : TaskPtr) : Heap :=
  match (s.tasks this).fTarget with
  | none => s
  | some target =>
    if (s.proxies target).fLastRenderTask = some this then
      s.setProxy target { s.proxies target with fLastRenderTask := none }
    else s

/-- The loop of `GrRenderTask::closeThoseWhoDependOnMe` (lines 133-137), entered at index
`i`.  Every round reads `fDependents.count()` and `fDependents[i]` from the current heap;
the first argument bounds the number of rounds. -/
def GrRenderTask.closeThoseWhoDependOnMe.loop (this : TaskPtr) (caps : GrCaps) :
    Nat → Nat → Heap → Heap
  | 0, _, s => s
  | rounds + 1, i, s =>
    match (s.tasks this).fDependents[i]? with
    | none => s
    | some d =>
      GrRenderTask.closeThoseWhoDependOnMe.loop this caps rounds (i + 1)
        (if GrRenderTask.isClosed s d then s else GrRenderTask.makeClosed s d caps)

/-- `GrRenderTask::closeThoseWhoDependOnMe` (lines 132-138).  The loop gets as many rounds
as the dependents array has entries at the call; `closeThoseWhoDependOnMe_rounds` shows that
the loop then has left by its own exit test. -/
def GrRenderTask.closeThoseWhoDependOnMe (s : Heap) (this : TaskPtr) (caps : GrCaps) : Heap :=
  GrRenderTask.closeThoseWhoDependOnMe.loop this caps (s.tasks this).fDependents.length 0 s

/-- The loop of `GrRenderTask::closeThoseWhoDependOnMe` (lines 133-137) once more, which
beside the heap keeps the list of the tasks on which it calls `makeClosed` (line 135). -/
def GrRenderTask.closeThoseWhoDependOnMe.traced (this : TaskPtr) (caps : GrCaps) :
    Nat → Nat → Heap → List TaskPtr → Heap × List TaskPtr
  | 0, _, s, calls => (s, calls)
  | rounds + 1, i, s, calls =>
    match (s.tasks this).fDependents[i]? with
    | none => (s, calls)
    | some d =>
      if GrRenderTask.isClosed s d then
        GrRenderTask.closeThoseWhoDependOnMe.traced this caps rounds (i + 1) s calls
      else
        GrRenderTask.closeThoseWhoDependOnMe.traced this caps rounds (i + 1)
          (GrRenderTask.makeClosed s d caps) (calls ++ [d])

/-- The tasks on which `closeThoseWhoDependOnMe` calls `makeClosed`, in the order of the
calls. -/
def GrRenderTask.closeThoseWhoDependOnMe.makeClosedCalls (s : Heap) (this : TaskPtr)
    (caps : GrCaps) : List TaskPtr :=
  (GrRenderTask.closeThoseWhoDependOnMe.traced this caps
    (s.tasks this).fDependents.length 0 s []).2

/-- Close, in order, the open tasks of a list: one round of the loop of
`closeThoseWhoDependOnMe` for each entry. -/
def closeEach (caps : GrCaps) : List TaskPtr → Heap → Heap
  | [], s => s
  | d :: rest, s =>
    closeEach caps rest
      (if GrRenderTask.isClosed s d then s else GrRenderTask.makeClosed s d caps)

/-- What a call of a `bool` function with `SkASSERT`s gives: a value, or a failed
assertion. -/
inductive Answer where
  | value (b : Bool)
  | fault
deriving DecidableEq, Repr

/-- `GrRenderTask::isInstantiated` (lines 140-166).  A null `fTarget` cannot be
dereferenced and is counted as a fault. -/
def GrRenderTask.isInstantiated (s : Heap) (this : TaskPtr) : Answer :=
  match (s.tasks this).fTarget with
  | none => Answer.fault
  | some target =>
    let proxy := s.proxies target
    if proxy.isInstantiated = false then Answer.value false
    else
      let minStencilSampleCount : Int :=
        match proxy.asRenderTargetProxy with
        | some numStencilSamples => numStencilSamples
        | none => 0
      let surface : Answer :=
        if proxy.wasDestroyed then Answer.value false else Answer.value true
      if minStencilSampleCount ≠ 0 then
        match proxy.peekRenderTarget with
        | none => Answer.fault
        | some none => Answer.value false
        | some (some numSamples) =>
          if numSamples ≥ minStencilSampleCount then surface else Answer.fault
      else surface

/-- The target needs a stencil attachment: it is a render-target proxy with a non-zero
number of stencil samples. -/
def GrSurfaceProxy.requiresStencil (proxy : GrSurfaceProxy) : Bool :=
  match proxy.asRenderTargetProxy with
  | some numStencilSamples => numStencilSamples != 0
  | none => false

/-- The render target of the proxy has a stencil attachment. -/
def GrSurfaceProxy.hasStencilAttachment (proxy : GrSurfaceProxy) : Bool :=
  match proxy.peekRenderTarget with
  | some (some _) => true
  | _ => false

/-- The reference definition of `isInstantiated`, in the words of the specification: the
target proxy is instantiated, and, when the target is a render-target proxy requiring a
non-zero number of stencil samples, the render target has a stencil attachment, and the
underlying surface has not been destroyed. -/
def isInstantiatedReference (s : Heap) (this : TaskPtr) : Bool :=
  match (s.tasks this).fTarget with
  | none => false
  | some target =>
    (s.proxies target).isInstantiated &&
      (!(s.proxies target).requiresStencil || (s.proxies target).hasStencilAttachment) &&
      !(s.proxies target).wasDestroyed

/-- The assertions of `isInstantiated` hold: the target is not null, and when the target is
instantiated and requires stencil samples, the render target is there (line 151) and a
stencil attachment, if there is one, has at least that many samples (line 157). -/
def isInstantiatedAsserts (s : Heap) (this : TaskPtr) : Bool :=
  match (s.tasks this).fTarget with
  | none => false
  | some target =>
    !(s.proxies target).isInstantiated || !(s.proxies target).requiresStencil ||
      (match (s.proxies target).peekRenderTarget, (s.proxies target).asRenderTargetProxy with
        | some (some numSamples), some numStencilSamples => numSamples ≥ numStencilSamples
        | some none, _ => true
        | _, _ => false)

/-- A call that `prepare` makes on a collaborator outside this file. -/
inductive PrepareCall where
  /-- `proxy->texPriv().scheduleUpload(flushState)`. -/
  | scheduleUpload (proxy : ProxyPtr)
  /-- `task->onPrepare(flushState)`. -/
  | onPrepare (task : TaskPtr)
deriving DecidableEq, Repr

/-- The loop of `GrRenderTask::prepare` (lines 50-52): walk the deferred proxies from index
0 and add one `scheduleUpload` call to the record of calls for each entry. -/
def GrRenderTask.prepare.loop : List ProxyPtr → List PrepareCall → List PrepareCall
  | [], calls => calls
  | p :: rest, calls => GrRenderTask.prepare.loop rest (calls ++ [PrepareCall.scheduleUpload p])

/-- `GrRenderTask::prepare` (lines 49-55): the calls it makes, in the order it makes them. -/
def GrRenderTask.prepare (s : Heap) (this : TaskPtr) : List PrepareCall :=
  GrRenderTask.prepare.loop (s.tasks this).fDeferredProxies [] ++ [PrepareCall.onPrepare this]

/-- The identifiers returned by `k` calls of `CreateUniqueID` in a row, the first of them
made with the counter at `nextID`. -/
def GrRenderTask.CreateUniqueID.calls : Nat → Nat → List Nat
  | 0, _ => []
  | k + 1, nextID =>
    (GrRenderTask.CreateUniqueID nextID).1 ::
      GrRenderTask.CreateUniqueID.calls k (GrRenderTask.CreateUniqueID nextID).2

/-- The counter after `k` calls of `CreateUniqueID` in a row, the first of them made with
the counter at `nextID`. -/
def GrRenderTask.CreateUniqueID.counterAfter : Nat → Nat → Nat
  | 0, nextID => nextID
  | k + 1, nextID =>
    GrRenderTask.CreateUniqueID.counterAfter k (GrRenderTask.CreateUniqueID nextID).2

/-! ### Object lifetimes -/

/-- The heap together with the set of task objects that are alive (constructed and not yet
destroyed). -/
structure World where
  heap : Heap
  live : TaskPtr → Bool

/-- Construct a task at address `this` with target `target`. -/
def World.construct (w : World) (this : TaskPtr) (target : ProxyPtr) : World :=
  { heap := GrRenderTask.create w.heap this target
    live := fun x => if x = this then true else w.live x }

/-- Destroy the task at address `this`. -/
def World.destruct (w : World) (this : TaskPtr) : World :=
  { heap := GrRenderTask.destroy w.heap this
    live := fun x => if x = this then false else w.live x }

/-- Worlds reached from one with no task alive and no last writer set, by constructing
tasks at addresses that are not in use and destroying tasks that are alive. -/
inductive Lifetimes : World → Prop where
  | start (w : World) (hp : ∀ p, (w.heap.proxies p).fLastRenderTask = none)
      (hl : ∀ t, w.live t = false) : Lifetimes w
  | construct (w : World) (this : TaskPtr) (target : ProxyPtr) (hw : Lifetimes w)
      (h : w.live this = false) : Lifetimes (w.construct this target)
  | destruct (w : World) (this : TaskPtr) (hw : Lifetimes w)
      (h : w.live this = true) : Lifetimes (w.destruct this)

/-- The world before anything was constructed. -/
def World.fresh : World :=
  { heap := Heap.fresh, live := fun _ => false }

/-! ### Repeated reads, and the flush scheduler -/

/-- The call `this->addDependency(dependedOn, caps)` made `n` times in a row; a fault ends
the row. -/
def GrRenderTask.addDependencyProxy.times (this : TaskPtr) (dependedOn : ProxyPtr)
    (caps : GrCaps) : Nat → Heap → Outcome
  | 0, s => Outcome.done s
  | n + 1, s =>
    match GrRenderTask.addDependencyProxy s this dependedOn caps with
    | Outcome.fault s1 => Outcome.fault s1
    | Outcome.done s1 => GrRenderTask.addDependencyProxy.times this dependedOn caps n s1

/-- Modelled from the spec: the flush scheduler is not under `src/`.  A pending task can be
submitted when none of its dependencies is still pending (every dependency among the tasks
of the flush precedes it in the submission sequence). -/
def FlushScheduler.ready (s : Heap) (pending : List TaskPtr) (x : TaskPtr) : Bool :=
  (s.tasks x).fDependencies.all (fun y => !pending.contains y)

/-- Modelled from the spec: the flush scheduler is not under `src/`.  Topological ordering
over the dependency graph: every round submits the first pending task, in creation
sequence, that can be submitted; `none` when no pending task can be submitted (the
dependencies among them form a cycle) or the rounds are used up. -/
def FlushScheduler.loop (s : Heap) : Nat → List TaskPtr → List TaskPtr → Option (List TaskPtr)
  | _, [], submitted => some submitted
  | 0, _ :: _, _ => none
  | rounds + 1, x :: rest, submitted =>
    match (x :: rest).find? (FlushScheduler.ready s (x :: rest)) with
    | none => none
    | some y => FlushScheduler.loop s rounds ((x :: rest).erase y) (submitted ++ [y])

/-- Modelled from the spec: the flush scheduler is not under `src/`.  The submission
sequence for the tasks of a flush, given in creation sequence; one round for each task. -/
def FlushScheduler.order (s : Heap) (tasks : List TaskPtr) : Option (List TaskPtr) :=
  FlushScheduler.loop s tasks.length tasks []

/-! ### Concrete heaps used as test inputs -/

/-- Fresh heap after `task 0 -> addDependency(task 1)`. -/
def Heap.zeroOnOne : Heap :=
  GrRenderTask.addDependency.link Heap.fresh 0 1

/-- Fresh heap after `task 0 -> addDependency(task 0)`. -/
def Heap.selfEdge : Heap :=
  GrRenderTask.addDependency.link Heap.fresh 0 0

/-- Fresh heap after `task 1 -> addDependency(task 2)` and `task 2 -> addDependency(task 0)`. -/
def Heap.chain : Heap :=
  GrRenderTask.addDependency.link (GrRenderTask.addDependency.link Heap.fresh 1 2) 2 0

/-- The heap `Heap.chain` after `task 0 -> addDependency(task 1)`. -/
def Heap.ring : Heap :=
  GrRenderTask.addDependency.link Heap.chain 0 1

/-- Fresh heap in which task 1 was created on proxy 10, task 2 on proxy 20 and task 3 on
proxy 30. -/
def Heap.threeTasks : Heap :=
  GrRenderTask.create (GrRenderTask.create (GrRenderTask.create Heap.fresh 1 10) 2 20) 3 30

/-- The heap `Heap.threeTasks` after task 2 read proxy 10:
`task 2 -> addDependency(proxy 10, caps)`. -/
def Heap.readOnce : Heap :=
  (GrRenderTask.addDependencyProxy Heap.threeTasks 2 10 ()).heap

/-- The heap `Heap.threeTasks` in which proxy 40 is a deferred texture proxy and proxy 41 a
texture proxy that is not deferred. -/
def Heap.textures : Heap :=
  (Heap.threeTasks.setProxy 40 { asTextureProxy := some { isDeferred := true } }).setProxy 41
    { asTextureProxy := some { isDeferred := false } }

/-- A heap in which task 0 targets proxy 0: an instantiated render-target proxy that asks
for 4 stencil samples, whose render target has a stencil attachment with 1 sample. -/
def Heap.thinStencil : Heap :=
  { tasks := fun _ => { fTarget := some 0 }
    proxies := fun _ =>
      { isInstantiated := true, asRenderTargetProxy := some 4,
        peekRenderTarget := some (some 1) } }

/-- As `Heap.thinStencil`, with a stencil attachment of 4 samples. -/
def Heap.fullStencil : Heap :=
  { tasks := fun _ => { fTarget := some 0 }
    proxies := fun _ =>
      { isInstantiated := true, asRenderTargetProxy := some 4,
        peekRenderTarget := some (some 4) } }

/-- Fresh heap in which task 1 and then task 2 were created on the same proxy 10. -/
def Heap.twoWriters : Heap :=
  GrRenderTask.create (GrRenderTask.create Heap.fresh 1 10) 2 10

/-- The world in which task 1 and then task 2 were constructed on proxy 10 and task 3 on
proxy 30, and task 1 was destroyed again. -/
def World.oneGone : World :=
  (((World.fresh.construct 1 10).construct 2 10).construct 3 30).destruct 1

/-- Fresh heap after `task 0 -> addDependency(task 1)` and
`task 1 -> addDependency(task 2)`: the edges A -> B -> C with A = 0, B = 1, C = 2. -/
def Heap.line : Heap :=
  GrRenderTask.addDependency.link (GrRenderTask.addDependency.link Heap.fresh 0 1) 1 2

/-! ## Basic facts about the embedding -/

theorem findLoop_iff (x : TaskPtr) (l : List TaskPtr) : findLoop x l = true ↔ x ∈ l := by
  induction l with
  | nil => simp [findLoop]
  | cons d rest ih =>
    by_cases h : d = x
    · simp [findLoop, h]
    · have h2 : ¬ x = d := fun e => h e.symm
      simp [findLoop, h, h2, ih]

theorem findLoop_false_iff (x : TaskPtr) (l : List TaskPtr) : findLoop x l = false ↔ x ∉ l := by
  rw [← findLoop_iff]; simp

theorem dependsOn_iff (s : Heap) (a b : TaskPtr) :
    GrRenderTask.dependsOn s a b = true ↔ b ∈ (s.tasks a).fDependencies :=
  findLoop_iff b _

theorem isDependedent_iff (s : Heap) (a b : TaskPtr) :
    GrRenderTask.isDependedent s a b = true ↔ b ∈ (s.tasks a).fDependents :=
  findLoop_iff b _

theorem validateLoop_iff (s : Heap) (t : TaskPtr) (l : List TaskPtr) :
    validateLoop s t l = true ↔ ∀ d ∈ l, t ∈ (s.tasks d).fDependents := by
  induction l with
  | nil => simp [validateLoop]
  | cons d rest ih =>
    by_cases h : GrRenderTask.isDependedent s d t = true
    · have h2 := (isDependedent_iff s d t).1 h
      simp [validateLoop, h, ih, h2]
    · have h2 : t ∉ (s.tasks d).fDependents := fun e => h ((isDependedent_iff s d t).2 e)
      simp [validateLoop, h, h2]

theorem validate_iff (s : Heap) (t : TaskPtr) :
    GrRenderTask.validate s t = true ↔
      ∀ d ∈ (s.tasks t).fDependencies, t ∈ (s.tasks d).fDependents :=
  validateLoop_iff s t _

/-! ### The two appends of the task-based `addDependency` -/

theorem setTask_tasks (s : Heap) (t : TaskPtr) (v : GrRenderTask) (x : TaskPtr) :
    (s.setTask t v).tasks x = if x = t then v else s.tasks x := rfl

theorem link_fDependencies (s : Heap) (a b x : TaskPtr) :
    ((GrRenderTask.addDependency.link s a b).tasks x).fDependencies =
      if x = a then (s.tasks a).fDependencies ++ [b] else (s.tasks x).fDependencies := by
  simp only [GrRenderTask.addDependency.link, GrRenderTask.addDependent, setTask_tasks]
  by_cases hb : x = b <;> by_cases ha : x = a
  · subst hb; subst ha; simp
  · subst hb; simp [ha]
  · subst ha; simp [hb]
  · simp [ha, hb]

theorem link_fDependents (s : Heap) (a b x : TaskPtr) :
    ((GrRenderTask.addDependency.link s a b).tasks x).fDependents =
      if x = b then (s.tasks b).fDependents ++ [a] else (s.tasks x).fDependents := by
  simp only [GrRenderTask.addDependency.link, GrRenderTask.addDependent, setTask_tasks]
  by_cases hb : x = b <;> by_cases ha : x = a
  · subst hb; subst ha; simp
  · subst hb; simp [ha]
  · subst ha; simp [hb]
  · simp [ha, hb]

theorem link_fFlags (s : Heap) (a b x : TaskPtr) :
    ((GrRenderTask.addDependency.link s a b).tasks x).fFlags = (s.tasks x).fFlags := by
  simp only [GrRenderTask.addDependency.link, GrRenderTask.addDependent, setTask_tasks]
  by_cases hb : x = b <;> by_cases ha : x = a
  · subst hb; subst ha; simp
  · subst hb; simp [ha]
  · subst ha; simp [hb]
  · simp [ha, hb]

theorem link_proxies (s : Heap) (a b : TaskPtr) :
    (GrRenderTask.addDependency.link s a b).proxies = s.proxies := rfl

theorem link_fDeferredProxies (s : Heap) (a b x : TaskPtr) :
    ((GrRenderTask.addDependency.link s a b).tasks x).fDeferredProxies =
      (s.tasks x).fDeferredProxies := by
  simp only [GrRenderTask.addDependency.link, GrRenderTask.addDependent, setTask_tasks]
  by_cases hb : x = b <;> by_cases ha : x = a
  · subst hb; subst ha; simp
  · subst hb; simp [ha]
  · subst ha; simp [hb]
  · simp [ha, hb]

/-- What a returning task-based `addDependency` did: nothing, or the two appends. -/
theorem addDependency_done {s s1 : Heap} {a b : TaskPtr}
    (h : GrRenderTask.addDependency s a b = Outcome.done s1) :
    (s1 = s ∧ b ∈ (s.tasks a).fDependencies ∧ a ∉ (s.tasks b).fDependencies) ∨
      (b ∉ (s.tasks a).fDependencies ∧ a ∉ (s.tasks b).fDependencies ∧
        s1 = GrRenderTask.addDependency.link s a b) := by
  unfold GrRenderTask.addDependency at h
  by_cases h1 : GrRenderTask.dependsOn s b a = true
  · simp [h1] at h
  · have n1 : a ∉ (s.tasks b).fDependencies := fun e => h1 ((dependsOn_iff s b a).2 e)
    by_cases h2 : GrRenderTask.dependsOn s a b = true
    · simp only [h1, h2, if_true] at h
      left
      refine ⟨?_, (dependsOn_iff s a b).1 h2, n1⟩
      simp at h
      exact h.symm
    · have n2 : b ∉ (s.tasks a).fDependencies := fun e => h2 ((dependsOn_iff s a b).2 e)
      right
      refine ⟨n2, n1, ?_⟩
      simp only [h1, h2] at h
      by_cases h3 : GrRenderTask.validate (GrRenderTask.addDependency.link s a b) a = true
      · simp [h3] at h
        exact h.symm
      · simp [h3] at h

/-- A faulting task-based `addDependency` that hit the cycle guard left the heap as it was. -/
theorem addDependency_guard {s : Heap} {a b : TaskPtr}
    (h : a ∈ (s.tasks b).fDependencies) :
    GrRenderTask.addDependency s a b = Outcome.fault s := by
  unfold GrRenderTask.addDependency
  simp [(dependsOn_iff s b a).2 h]

theorem makeClosed_fDependencies (s : Heap) (t : TaskPtr) (c : GrCaps) (x : TaskPtr) :
    ((GrRenderTask.makeClosed s t c).tasks x).fDependencies = (s.tasks x).fDependencies := by
  unfold GrRenderTask.makeClosed
  split
  · rfl
  · rw [setTask_tasks]
    by_cases hx : x = t
    · subst hx; simp
    · simp [hx]

theorem makeClosed_fDependents (s : Heap) (t : TaskPtr) (c : GrCaps) (x : TaskPtr) :
    ((GrRenderTask.makeClosed s t c).tasks x).fDependents = (s.tasks x).fDependents := by
  unfold GrRenderTask.makeClosed
  split
  · rfl
  · rw [setTask_tasks]
    by_cases hx : x = t
    · subst hx; simp
    · simp [hx]

theorem record_fDependencies (s : Heap) (t : TaskPtr) (p : ProxyPtr) (x : TaskPtr) :
    ((GrRenderTask.addDependencyProxy.record s t p).tasks x).fDependencies =
      (s.tasks x).fDependencies := by
  unfold GrRenderTask.addDependencyProxy.record
  split
  · rfl
  · split
    · rw [setTask_tasks]
      by_cases hx : x = t
      · subst hx; simp
      · simp [hx]
    · rfl

theorem record_fDependents (s : Heap) (t : TaskPtr) (p : ProxyPtr) (x : TaskPtr) :
    ((GrRenderTask.addDependencyProxy.record s t p).tasks x).fDependents =
      (s.tasks x).fDependents := by
  unfold GrRenderTask.addDependencyProxy.record
  split
  · rfl
  · split
    · rw [setTask_tasks]
      by_cases hx : x = t
      · subst hx; simp
      · simp [hx]
    · rfl

theorem record_fFlags (s : Heap) (t : TaskPtr) (p : ProxyPtr) (x : TaskPtr) :
    ((GrRenderTask.addDependencyProxy.record s t p).tasks x).fFlags = (s.tasks x).fFlags := by
  unfold GrRenderTask.addDependencyProxy.record
  split
  · rfl
  · split
    · rw [setTask_tasks]
      by_cases hx : x = t
      · subst hx; simp
      · simp [hx]
    · rfl

/-! ### The proxy-based `addDependency`, step by step -/

theorem addDependencyProxy_done {s s1 : Heap} {t : TaskPtr} {p : ProxyPtr} {c : GrCaps}
    (h : GrRenderTask.addDependencyProxy s t p c = Outcome.done s1) :
    ∃ s0, GrRenderTask.addDependencyProxy.convert s t p c = Outcome.done s0 ∧
      s1 = GrRenderTask.addDependencyProxy.record s0 t p := by
  unfold GrRenderTask.addDependencyProxy at h
  cases hc : GrRenderTask.addDependencyProxy.convert s t p c with
  | done s0 =>
    rw [hc] at h
    simp at h
    exact ⟨s0, rfl, h.symm⟩
  | fault s0 =>
    rw [hc] at h
    simp at h

theorem convert_done {s s0 : Heap} {t : TaskPtr} {p : ProxyPtr} {c : GrCaps}
    (h : GrRenderTask.addDependencyProxy.convert s t p c = Outcome.done s0) :
    s0 = s ∨ ∃ w s2, (s.proxies p).fLastRenderTask = some w ∧ w ≠ t ∧
      GrRenderTask.isClosed s t = false ∧
      GrRenderTask.addDependency s t w = Outcome.done s2 ∧
      s0 = GrRenderTask.makeClosed s2 w c := by
  unfold GrRenderTask.addDependencyProxy.convert at h
  cases hw : (s.proxies p).fLastRenderTask with
  | none =>
    rw [hw] at h
    simp at h
    exact Or.inl h.symm
  | some w =>
    rw [hw] at h
    by_cases hcl : GrRenderTask.isClosed s t = true
    · simp [hcl] at h
    · by_cases hwt : w = t
      · simp [hcl, hwt] at h
        exact Or.inl h.symm
      · simp only [hcl, hwt] at h
        cases ha : GrRenderTask.addDependency s t w with
        | done s2 =>
          rw [ha] at h
          simp at h
          right
          refine ⟨w, s2, rfl, hwt, ?_, ha, h.symm⟩
          simpa using hcl
        | fault s2 =>
          rw [ha] at h
          simp at h

theorem SameLists.refl (s : Heap) : SameLists s s := fun _ => ⟨rfl, rfl⟩

theorem SameLists.trans {s s1 s2 : Heap} (h1 : SameLists s s1) (h2 : SameLists s1 s2) :
    SameLists s s2 := fun x =>
  ⟨(h2 x).1.trans (h1 x).1, (h2 x).2.trans (h1 x).2⟩

theorem sameLists_makeClosed (s : Heap) (t : TaskPtr) (c : GrCaps) :
    SameLists s (GrRenderTask.makeClosed s t c) := fun x =>
  ⟨makeClosed_fDependencies s t c x, makeClosed_fDependents s t c x⟩

theorem sameLists_record (s : Heap) (t : TaskPtr) (p : ProxyPtr) :
    SameLists s (GrRenderTask.addDependencyProxy.record s t p) := fun x =>
  ⟨record_fDependencies s t p x, record_fDependents s t p x⟩

/-- Induction over reachable heaps for a property that only reads the two edge lists. -/
theorem Reachable.lists_induction (I : Heap → Prop)
    (h0 : ∀ s, s.EmptyLists → I s)
    (hsame : ∀ s s1, SameLists s s1 → I s → I s1)
    (hlink : ∀ s a b, I s → b ∉ (s.tasks a).fDependencies → a ∉ (s.tasks b).fDependencies →
      I (GrRenderTask.addDependency.link s a b))
    (s : Heap) (hs : Reachable s) : I s := by
  induction hs with
  | start s h => exact h0 s h
  | task s s1 a b _ h ih =>
    rcases addDependency_done h with ⟨e, _, _⟩ | ⟨n2, n1, e⟩
    · rw [e]; exact ih
    · rw [e]; exact hlink s a b ih n2 n1
  | proxy s s1 t p c _ h ih =>
    obtain ⟨s0, hc, e⟩ := addDependencyProxy_done h
    have hrec : SameLists s0 s1 := by rw [e]; exact sameLists_record s0 t p
    apply hsame s0 s1 hrec
    rcases convert_done hc with e0 | ⟨w, s2, _, _, _, ha, e0⟩
    · rw [e0]; exact ih
    · rw [e0]
      apply hsame s2 _ (sameLists_makeClosed s2 w c)
      rcases addDependency_done ha with ⟨e2, _, _⟩ | ⟨n2, n1, e2⟩
      · rw [e2]; exact ih
      · rw [e2]; exact hlink s t w ih n2 n1

theorem inverse_link {s : Heap} (a b : TaskPtr) (h : Inverse s) :
    Inverse (GrRenderTask.addDependency.link s a b) := by
  intro x y
  rw [link_fDependencies, link_fDependents]
  have hxy := h x y
  by_cases hx : x = a <;> by_cases hy : y = b
  · subst hx; subst hy
    simp [List.count_append, hxy]
  · subst hx
    have : ¬ b = y := fun e => hy e.symm
    simp [List.count_append, hxy, hy, this]
  · subst hy
    have : ¬ a = x := fun e => hx e.symm
    simp [List.count_append, hxy, hx, this]
  · simp [hx, hy, hxy]

theorem reachable_inverse {s : Heap} (hs : Reachable s) : Inverse s := by
  refine Reachable.lists_induction Inverse ?_ ?_ ?_ s hs
  · intro s h x y
    rw [(h x).1, (h y).2]
    rfl
  · intro s s1 hl h x y
    rw [(hl x).1, (hl y).2]
    exact h x y
  · intro s a b h _ _
    exact inverse_link a b h

theorem inverse_validate {s : Heap} (h : Inverse s) (t : TaskPtr) :
    GrRenderTask.validate s t = true := by
  rw [validate_iff]
  intro d hd
  have := h t d
  rw [← List.count_pos_iff] at hd ⊢
  omega

/-- Every task of a reachable heap passes its own `validate()` check. -/
theorem reachable_validate {s : Heap} (hs : Reachable s) (t : TaskPtr) :
    GrRenderTask.validate s t = true :=
  inverse_validate (reachable_inverse hs) t

theorem validate_link {s : Heap} (a b : TaskPtr) (h : GrRenderTask.validate s a = true) :
    GrRenderTask.validate (GrRenderTask.addDependency.link s a b) a = true := by
  rw [validate_iff] at h ⊢
  intro d hd
  rw [link_fDependencies, if_pos rfl] at hd
  rw [link_fDependents]
  by_cases hdb : d = b
  · simp [hdb]
  · rw [if_neg hdb]
    rcases List.mem_append.1 hd with h1 | h1
    · exact h d h1
    · simp at h1
      exact absurd h1 hdb

/-- A task-based `addDependency` that adds a new edge returns when the caller passed its own
`validate` check before the call. -/
theorem addDependency_new {s : Heap} {a b : TaskPtr}
    (n1 : a ∉ (s.tasks b).fDependencies) (n2 : b ∉ (s.tasks a).fDependencies)
    (hv : GrRenderTask.validate s a = true) :
    GrRenderTask.addDependency s a b = Outcome.done (GrRenderTask.addDependency.link s a b) := by
  have h1 : GrRenderTask.dependsOn s b a = false := (findLoop_false_iff a _).2 n1
  have h2 : GrRenderTask.dependsOn s a b = false := (findLoop_false_iff b _).2 n2
  unfold GrRenderTask.addDependency
  simp [h1, h2, validate_link a b hv]

/-- A task-based `addDependency` on an edge that is already there returns at once. -/
theorem addDependency_old {s : Heap} {a b : TaskPtr}
    (n1 : a ∉ (s.tasks b).fDependencies) (h2 : b ∈ (s.tasks a).fDependencies) :
    GrRenderTask.addDependency s a b = Outcome.done s := by
  have h1 : GrRenderTask.dependsOn s b a = false := (findLoop_false_iff a _).2 n1
  unfold GrRenderTask.addDependency
  simp [h1, (dependsOn_iff s a b).2 h2]

/-! ## The claims -/

/-- The edge is there after a task-based `addDependency` that passed the cycle guard, in a
heap where the caller passes its own `validate()` check. -/
theorem addDependency_edge {s : Heap} {a b : TaskPtr}
    (hba : GrRenderTask.dependsOn s b a = false) (hv : GrRenderTask.validate s a = true) :
    ∃ s1, GrRenderTask.addDependency s a b = Outcome.done s1 ∧
      b ∈ (s1.tasks a).fDependencies ∧ a ∈ (s1.tasks b).fDependents := by
  have n1 : a ∉ (s.tasks b).fDependencies := (findLoop_false_iff a _).1 hba
  by_cases h2 : b ∈ (s.tasks a).fDependencies
  · exact ⟨s, addDependency_old n1 h2, h2, (validate_iff s a).1 hv b h2⟩
  · refine ⟨_, addDependency_new n1 h2 hv, ?_, ?_⟩
    · rw [link_fDependencies]; simp
    · rw [link_fDependents]; simp

/-- C1. For all tasks `A` and `B` such that `B` does not depend on `A`, in a heap where `A`
passes its own `validate()` check (every dependency of `A` lists `A` as a dependent, as in
every reachable heap): the task-based `A.addDependency(B)` returns, afterwards
`A.dependsOn(B)` is true, `B` is in the dependency list of `A`, and `A` is in the dependents
list of `B`.  Distinctness of `A` and `B` is not needed. -/
theorem addDependency_registers_edge (s : Heap) (A B : TaskPtr)
    (hBA : GrRenderTask.dependsOn s B A = false) (hv : GrRenderTask.validate s A = true) :
    ∃ s1, GrRenderTask.addDependency s A B = Outcome.done s1 ∧
      GrRenderTask.dependsOn s1 A B = true ∧
      B ∈ (s1.tasks A).fDependencies ∧ A ∈ (s1.tasks B).fDependents := by
  obtain ⟨s1, h, hd, hdt⟩ := addDependency_edge hBA hv
  exact ⟨s1, h, (dependsOn_iff s1 A B).2 hd, hd, hdt⟩

/-- Witness of C1: tasks 0 and 1 of the fresh heap. -/
theorem addDependency_registers_edge_witness :
    ∃ s1, GrRenderTask.addDependency Heap.fresh 0 1 = Outcome.done s1 ∧
      GrRenderTask.dependsOn s1 0 1 = true ∧
      1 ∈ (s1.tasks 0).fDependencies ∧ 0 ∈ (s1.tasks 1).fDependents :=
  addDependency_registers_edge Heap.fresh 0 1 (by decide) (by decide)

/-- The heap that a task-based `addDependency` leaves, whether it returns or faults, is the
heap before the call or that heap with the two appends. -/
theorem addDependency_heap_cases (s : Heap) (a b : TaskPtr) :
    (GrRenderTask.addDependency s a b).heap = s ∨
      (GrRenderTask.addDependency s a b).heap = GrRenderTask.addDependency.link s a b := by
  unfold GrRenderTask.addDependency
  split
  · exact Or.inl rfl
  · split
    · exact Or.inl rfl
    · dsimp only
      split
      · exact Or.inr rfl
      · exact Or.inr rfl

/-- A task-based `addDependency` on an edge that is already there leaves the heap as it
was, whether it returns or stops at the cycle guard. -/
theorem addDependency_heap_of_dependsOn {s : Heap} {a b : TaskPtr}
    (h : GrRenderTask.dependsOn s a b = true) : (GrRenderTask.addDependency s a b).heap = s := by
  unfold GrRenderTask.addDependency
  by_cases h1 : GrRenderTask.dependsOn s b a = true
  · rw [if_pos h1]
    rfl
  · rw [if_neg h1, if_pos h]
    rfl

/-- C2. Task-based `addDependency` is idempotent: for all tasks `A` and `B` where `A`
already depends on `B`, `A.addDependency(B)` leaves the whole heap as it was: every list and
every other field is the same before and after, whether the call returns (as it does when
`B` does not depend on `A`) or stops at the cycle guard.  Hence the heap after calling
`A.addDependency(B)` twice is the heap after calling it once; and for distinct `A` and `B`,
after a call that returned, the same call again returns with the same heap. -/
theorem addDependency_idempotent (s : Heap) (A B : TaskPtr) :
    (GrRenderTask.dependsOn s A B = true → (GrRenderTask.addDependency s A B).heap = s) ∧
    (GrRenderTask.dependsOn s A B = true → GrRenderTask.dependsOn s B A = false →
      GrRenderTask.addDependency s A B = Outcome.done s) ∧
    (GrRenderTask.addDependency (GrRenderTask.addDependency s A B).heap A B).heap =
      (GrRenderTask.addDependency s A B).heap ∧
    (A ≠ B → ∀ s1, GrRenderTask.addDependency s A B = Outcome.done s1 →
      GrRenderTask.addDependency s1 A B = Outcome.done s1) := by
  refine ⟨fun h => addDependency_heap_of_dependsOn h, ?_, ?_, ?_⟩
  · intro h hBA
    exact addDependency_old ((findLoop_false_iff A _).1 hBA) ((dependsOn_iff s A B).1 h)
  · rcases addDependency_heap_cases s A B with e | e
    · rw [e, e]
    · rw [e]
      apply addDependency_heap_of_dependsOn
      rw [dependsOn_iff, link_fDependencies]
      simp
  · intro hne s1 h
    rcases addDependency_done h with ⟨e, h2, n1⟩ | ⟨n2, n1, e⟩
    · rw [e]; exact addDependency_old n1 h2
    · have hBA : A ∉ (s1.tasks B).fDependencies := by
        rw [e, link_fDependencies, if_neg (fun e => hne e.symm)]
        exact n1
      have hAB : B ∈ (s1.tasks A).fDependencies := by
        rw [e, link_fDependencies]; simp
      exact addDependency_old hBA hAB

/-- Witness of C2: task 0 already depends on task 1 and asks again; task 0 of
`Heap.selfEdge` depends on itself and asks again (the call stops at the cycle guard, with
the heap as it was); and task 2 of the fresh heap asks twice for a dependency on task 3. -/
theorem addDependency_idempotent_witness :
    (GrRenderTask.addDependency Heap.zeroOnOne 0 1).heap = Heap.zeroOnOne ∧
      (GrRenderTask.addDependency Heap.selfEdge 0 0).heap = Heap.selfEdge ∧
      GrRenderTask.addDependency Heap.zeroOnOne 0 1 = Outcome.done Heap.zeroOnOne ∧
      (GrRenderTask.addDependency Heap.fresh 2 3 =
          Outcome.done (GrRenderTask.addDependency.link Heap.fresh 2 3) ∧
        GrRenderTask.addDependency (GrRenderTask.addDependency.link Heap.fresh 2 3) 2 3 =
          Outcome.done (GrRenderTask.addDependency.link Heap.fresh 2 3)) :=
  ⟨(addDependency_idempotent Heap.zeroOnOne 0 1).1 (by decide),
    (addDependency_idempotent Heap.selfEdge 0 0).1 (by decide),
    (addDependency_idempotent Heap.zeroOnOne 0 1).2.1 (by decide) (by decide),
    rfl, (addDependency_idempotent Heap.fresh 2 3).2.2.2 (by decide) _ rfl⟩

/-- C3. For all tasks `A` and `B` where `B` already has `A` in its dependency list, the
task-based `A.addDependency(B)` faults on the cycle guard, with the heap as it was: no edge
is added. -/
theorem addDependency_rejects_direct_cycle (s : Heap) (A B : TaskPtr)
    (h : GrRenderTask.dependsOn s B A = true) :
    GrRenderTask.addDependency s A B = Outcome.fault s :=
  addDependency_guard ((dependsOn_iff s B A).1 h)

/-- Witness of C3: task 0 depends on task 1, and task 1 asks for a dependency on task 0. -/
theorem addDependency_rejects_direct_cycle_witness :
    GrRenderTask.dependsOn Heap.zeroOnOne 0 1 = true ∧
      GrRenderTask.addDependency Heap.zeroOnOne 1 0 = Outcome.fault Heap.zeroOnOne :=
  ⟨by decide, addDependency_rejects_direct_cycle Heap.zeroOnOne 1 0 (by decide)⟩

/-! ### Invariants of reachable heaps -/

theorem reachable_fresh : Reachable Heap.fresh :=
  Reachable.start _ (fun _ => ⟨rfl, rfl⟩)

theorem reachable_no_two_cycle {s : Heap} (hs : Reachable s) :
    ∀ a b, a ≠ b → b ∈ (s.tasks a).fDependencies → a ∉ (s.tasks b).fDependencies := by
  refine Reachable.lists_induction
    (fun s => ∀ a b, a ≠ b → b ∈ (s.tasks a).fDependencies → a ∉ (s.tasks b).fDependencies)
    ?_ ?_ ?_ s hs
  · intro s h a b _ hb
    rw [(h a).1] at hb
    simp at hb
  · intro s s1 hl h a b hne hb
    rw [(hl a).1] at hb
    rw [(hl b).1]
    exact h a b hne hb
  · intro s a0 b0 h n2 n1 a b hne hb ha
    rw [link_fDependencies] at hb ha
    by_cases ea : a = a0
    · subst ea
      have hba : ¬ b = a := fun e => hne e.symm
      rw [if_neg hba] at ha
      rw [if_pos rfl] at hb
      rcases List.mem_append.1 hb with h1 | h1
      · exact h a b hne h1 ha
      · simp at h1
        subst h1
        exact n1 ha
    · rw [if_neg ea] at hb
      by_cases eb : b = a0
      · subst eb
        rw [if_pos rfl] at ha
        rcases List.mem_append.1 ha with h1 | h1
        · exact h a b hne hb h1
        · simp at h1
          subst h1
          exact n1 hb
      · rw [if_neg eb] at ha
        exact h a b hne hb ha

theorem reachable_nodup_dependencies {s : Heap} (hs : Reachable s) :
    ∀ t, (s.tasks t).fDependencies.Nodup := by
  refine Reachable.lists_induction (fun s => ∀ t, (s.tasks t).fDependencies.Nodup)
    ?_ ?_ ?_ s hs
  · intro s h t
    rw [(h t).1]
    exact List.nodup_nil
  · intro s s1 hl h t
    rw [(hl t).1]
    exact h t
  · intro s a b h n2 _ t
    rw [link_fDependencies]
    by_cases e : t = a
    · subst e
      rw [if_pos rfl]
      rw [List.nodup_append]
      refine ⟨h t, List.nodup_singleton b, ?_⟩
      intro x hx hx1
      simp at hx1
      subst hx1
      exact n2 hx
    · rw [if_neg e]
      exact h t

/-! ### Claims C4 to C6 -/

/-- C4, counterexample.  In the heap reached from the fresh one by
`task 1 -> addDependency(task 2)` and `task 2 -> addDependency(task 0)`, task 1 depends on
task 0 through a chain of two edges, yet `task 0 -> addDependency(task 1)` returns and adds
the edge: the heap reached has a dependency cycle through tasks 0, 1 and 2. -/
theorem addDependency_transitive_cycle_counterexample :
    DependsTransitively Heap.chain 1 0 ∧
      GrRenderTask.addDependency Heap.chain 0 1 = Outcome.done Heap.ring ∧
      Reachable Heap.ring ∧ DependsTransitively Heap.ring 0 0 := by
  have e12 : Edge Heap.chain 1 2 := by unfold Edge; decide
  have e20 : Edge Heap.chain 2 0 := by unfold Edge; decide
  have r01 : Edge Heap.ring 0 1 := by unfold Edge; decide
  have r12 : Edge Heap.ring 1 2 := by unfold Edge; decide
  have r20 : Edge Heap.ring 2 0 := by unfold Edge; decide
  have step1 : Reachable (GrRenderTask.addDependency.link Heap.fresh 1 2) :=
    Reachable.task Heap.fresh _ 1 2 reachable_fresh rfl
  have step2 : Reachable Heap.chain := Reachable.task _ _ 2 0 step1 rfl
  have step3 : Reachable Heap.ring := Reachable.task _ _ 0 1 step2 rfl
  refine ⟨?_, rfl, step3, ?_⟩
  · exact Relation.TransGen.tail (Relation.TransGen.single e12) e20
  · exact Relation.TransGen.tail
      (Relation.TransGen.tail (Relation.TransGen.single r01) r12) r20

/-- C4, amended.  Only direct cycles are rejected: for all tasks `A` and `B` where `B` has
`A` in its own dependency list, `A.addDependency(B)` faults and leaves the heap as it was;
consequently, in every heap reached from tasks with empty lists by `addDependency` calls
that returned, no two distinct tasks are in each other's dependency list. -/
theorem addDependency_rejects_direct_cycles_only (s : Heap) (A B : TaskPtr) :
    (Edge s B A → GrRenderTask.addDependency s A B = Outcome.fault s) ∧
    (Reachable s → A ≠ B → ¬ (Edge s A B ∧ Edge s B A)) := by
  constructor
  · intro h
    exact addDependency_guard h
  · intro hs hne h
    exact reachable_no_two_cycle hs A B hne h.1 h.2

/-- Witness of the amended C4, in the heap `Heap.chain` (edges 1 -> 2 and 2 -> 0): task 2
is rejected as a dependency of task 0, and tasks 1 and 2 are not in each other's list. -/
theorem addDependency_rejects_direct_cycles_only_witness :
    (Edge Heap.chain 2 0 ∧
      GrRenderTask.addDependency Heap.chain 0 2 = Outcome.fault Heap.chain) ∧
    ¬ (Edge Heap.chain 1 2 ∧ Edge Heap.chain 2 1) :=
  have e20 : Edge Heap.chain 2 0 := by unfold Edge; decide
  have hr : Reachable Heap.chain :=
    Reachable.task _ _ 2 0 (Reachable.task Heap.fresh _ 1 2 reachable_fresh rfl) rfl
  ⟨⟨e20, (addDependency_rejects_direct_cycles_only Heap.chain 0 2).1 e20⟩,
    (addDependency_rejects_direct_cycles_only Heap.chain 1 2).2 hr (by decide)⟩

/-- C5. Cycle rejection is atomic: after `T1.addDependency(T2)` returned with heap `s1`, the
call `T2.addDependency(T1)` faults, and the heap at the fault is `s1` itself: every list of
every task is what it was before that second call. -/
theorem addDependency_cycle_rejection_atomic (s s1 : Heap) (T1 T2 : TaskPtr)
    (h : GrRenderTask.addDependency s T1 T2 = Outcome.done s1) :
    GrRenderTask.addDependency s1 T2 T1 = Outcome.fault s1 := by
  apply addDependency_guard
  rcases addDependency_done h with ⟨e, h2, _⟩ | ⟨_, _, e⟩
  · rw [e]; exact h2
  · rw [e, link_fDependencies]; simp

/-- Witness of C5: tasks 0 and 1 of the fresh heap. -/
theorem addDependency_cycle_rejection_atomic_witness :
    GrRenderTask.addDependency Heap.fresh 0 1 = Outcome.done Heap.zeroOnOne ∧
      GrRenderTask.addDependency Heap.zeroOnOne 1 0 = Outcome.fault Heap.zeroOnOne :=
  ⟨rfl, addDependency_cycle_rejection_atomic Heap.fresh Heap.zeroOnOne 0 1 rfl⟩

/-- C6. No duplicate edges: in every heap reached from tasks with empty lists by task-based
and proxy-based `addDependency` calls that returned, no dependency list and no dependents
list holds the same task twice. -/
theorem reachable_no_duplicate_edges (s : Heap) (hs : Reachable s) (t : TaskPtr) :
    (s.tasks t).fDependencies.Nodup ∧ (s.tasks t).fDependents.Nodup := by
  refine ⟨reachable_nodup_dependencies hs t, ?_⟩
  rw [List.nodup_iff_count_le_one]
  intro x
  rw [← reachable_inverse hs x t]
  exact List.nodup_iff_count_le_one.1 (reachable_nodup_dependencies hs x) t

/-- Witness of C6: task 0 of the heap `Heap.ring`, which is reachable. -/
theorem reachable_no_duplicate_edges_witness :
    Reachable Heap.ring ∧
      (Heap.ring.tasks 0).fDependencies.Nodup ∧ (Heap.ring.tasks 0).fDependents.Nodup :=
  have hr : Reachable Heap.ring :=
    Reachable.task _ _ 0 1 (Reachable.task _ _ 2 0
      (Reachable.task Heap.fresh _ 1 2 reachable_fresh rfl) rfl) rfl
  ⟨hr, reachable_no_duplicate_edges Heap.ring hr 0⟩

/-! ### Closing, recording and constructing -/

theorem or_closed_flag (f : Nat) : (f ||| kClosed_Flag) &&& kClosed_Flag = 1 := by
  unfold kClosed_Flag
  rw [Nat.and_one_is_mod]
  have h := Nat.or_mod_two_eq_one (a := f) (b := 1)
  simp [h]

theorem isClosed_makeClosed (s : Heap) (t : TaskPtr) (c : GrCaps) :
    GrRenderTask.isClosed (GrRenderTask.makeClosed s t c) t = true := by
  unfold GrRenderTask.makeClosed
  by_cases h : GrRenderTask.isClosed s t = true
  · rw [if_pos h]; exact h
  · rw [if_neg h]
    unfold GrRenderTask.isClosed
    rw [setTask_tasks, if_pos rfl]
    simp [or_closed_flag]

theorem isClosed_record (s : Heap) (t : TaskPtr) (p : ProxyPtr) (x : TaskPtr) :
    GrRenderTask.isClosed (GrRenderTask.addDependencyProxy.record s t p) x =
      GrRenderTask.isClosed s x := by
  unfold GrRenderTask.isClosed
  rw [record_fFlags]

theorem isClosed_link (s : Heap) (a b x : TaskPtr) :
    GrRenderTask.isClosed (GrRenderTask.addDependency.link s a b) x =
      GrRenderTask.isClosed s x := by
  unfold GrRenderTask.isClosed
  rw [link_fFlags]

theorem makeClosed_tasks_other (s : Heap) (t : TaskPtr) (c : GrCaps) (x : TaskPtr)
    (h : x ≠ t) : (GrRenderTask.makeClosed s t c).tasks x = s.tasks x := by
  unfold GrRenderTask.makeClosed
  split
  · rfl
  · rw [setTask_tasks, if_neg h]

theorem makeClosed_of_closed (s : Heap) (t : TaskPtr) (c : GrCaps)
    (h : GrRenderTask.isClosed s t = true) : GrRenderTask.makeClosed s t c = s := by
  unfold GrRenderTask.makeClosed
  rw [if_pos h]

theorem convert_self {s : Heap} {t : TaskPtr} {p : ProxyPtr} (c : GrCaps)
    (hopen : GrRenderTask.isClosed s t = false)
    (hw : (s.proxies p).fLastRenderTask = some t) :
    GrRenderTask.addDependencyProxy.convert s t p c = Outcome.done s := by
  unfold GrRenderTask.addDependencyProxy.convert
  rw [hw]
  simp [hopen]

theorem convert_other {s s2 : Heap} {t w : TaskPtr} {p : ProxyPtr} (c : GrCaps)
    (hopen : GrRenderTask.isClosed s t = false)
    (hw : (s.proxies p).fLastRenderTask = some w) (hne : w ≠ t)
    (ha : GrRenderTask.addDependency s t w = Outcome.done s2) :
    GrRenderTask.addDependencyProxy.convert s t p c =
      Outcome.done (GrRenderTask.makeClosed s2 w c) := by
  unfold GrRenderTask.addDependencyProxy.convert
  rw [hw]
  simp [hopen, hne, ha]

theorem convert_closed {s : Heap} {t w : TaskPtr} {p : ProxyPtr} (c : GrCaps)
    (hclosed : GrRenderTask.isClosed s t = true)
    (hw : (s.proxies p).fLastRenderTask = some w) :
    GrRenderTask.addDependencyProxy.convert s t p c = Outcome.fault s := by
  unfold GrRenderTask.addDependencyProxy.convert
  rw [hw]
  simp [hclosed]

theorem convert_no_writer {s : Heap} {p : ProxyPtr} (t : TaskPtr) (c : GrCaps)
    (hw : (s.proxies p).fLastRenderTask = none) :
    GrRenderTask.addDependencyProxy.convert s t p c = Outcome.done s := by
  unfold GrRenderTask.addDependencyProxy.convert
  rw [hw]

theorem addDependencyProxy_of_convert {s s0 : Heap} {t : TaskPtr} {p : ProxyPtr} {c : GrCaps}
    (h : GrRenderTask.addDependencyProxy.convert s t p c = Outcome.done s0) :
    GrRenderTask.addDependencyProxy s t p c =
      Outcome.done (GrRenderTask.addDependencyProxy.record s0 t p) := by
  unfold GrRenderTask.addDependencyProxy
  rw [h]

theorem addDependencyProxy_of_convert_fault {s s0 : Heap} {t : TaskPtr} {p : ProxyPtr}
    {c : GrCaps} (h : GrRenderTask.addDependencyProxy.convert s t p c = Outcome.fault s0) :
    GrRenderTask.addDependencyProxy s t p c = Outcome.fault s0 := by
  unfold GrRenderTask.addDependencyProxy
  rw [h]

theorem create_tasks_self (s : Heap) (t : TaskPtr) (p : ProxyPtr) :
    (GrRenderTask.create s t p).tasks t =
      { fTarget := some p, fUniqueID := (GrRenderTask.CreateUniqueID s.nextID).1,
        fFlags := 0 } := by
  simp [GrRenderTask.create, Heap.setProxy]

theorem create_tasks_other (s : Heap) (t : TaskPtr) (p : ProxyPtr) (x : TaskPtr) (h : x ≠ t) :
    (GrRenderTask.create s t p).tasks x = s.tasks x := by
  simp [GrRenderTask.create, Heap.setProxy, h]

theorem create_lastRenderTask (s : Heap) (t : TaskPtr) (p q : ProxyPtr) :
    ((GrRenderTask.create s t p).proxies q).fLastRenderTask =
      if q = p then some t else (s.proxies q).fLastRenderTask := by
  by_cases h : q = p
  · subst h; simp [GrRenderTask.create, Heap.setProxy]
  · simp [GrRenderTask.create, Heap.setProxy, h]

/-! ### Claims C7 to C10 -/

/-- The general half of C7, for a heap where the reader passes its own `validate()`. -/
theorem addDependencyProxy_other_writer {s : Heap} {T1 T2 : TaskPtr} {P : ProxyPtr}
    (caps : GrCaps) (hopen : GrRenderTask.isClosed s T2 = false)
    (hw : (s.proxies P).fLastRenderTask = some T1) (hne : T1 ≠ T2)
    (hdep : GrRenderTask.dependsOn s T1 T2 = false)
    (hv : GrRenderTask.validate s T2 = true) :
    ∃ s2, GrRenderTask.addDependency s T2 T1 = Outcome.done s2 ∧
      GrRenderTask.addDependencyProxy s T2 P caps = Outcome.done
        (GrRenderTask.addDependencyProxy.record (GrRenderTask.makeClosed s2 T1 caps) T2 P) ∧
      T1 ∈ (s2.tasks T2).fDependencies ∧ T2 ∈ (s2.tasks T1).fDependents := by
  obtain ⟨s2, h2, hd, hdt⟩ := addDependency_edge hdep hv
  exact ⟨s2, h2, addDependencyProxy_of_convert (convert_other caps hopen hw hne h2), hd, hdt⟩

/-- C7. Proxy-based dependency conversion.  For every open task `T2` and every proxy `P`
whose last writer is a task `T1` different from `T2`, where `T1` does not depend on `T2` (and
`T2` passes its own `validate()` check, as in every reachable heap):
`T2.addDependency(P, caps)` returns, and afterwards `T2` depends on `T1`, `T1` has `T2` in
its dependents, and `T1` is closed.  In particular, when `T1` is constructed on `P` and then
`T2` on another proxy `P2`, the call gives `T2.dependencies == [T1]`,
`T1.dependents == [T2]` and `T1` closed. -/
theorem addDependencyProxy_converts (s : Heap) (T1 T2 : TaskPtr) (P P2 : ProxyPtr)
    (caps : GrCaps) :
    (GrRenderTask.isClosed s T2 = false → (s.proxies P).fLastRenderTask = some T1 →
      T1 ≠ T2 → GrRenderTask.dependsOn s T1 T2 = false →
      GrRenderTask.validate s T2 = true →
      ∃ s1, GrRenderTask.addDependencyProxy s T2 P caps = Outcome.done s1 ∧
        GrRenderTask.dependsOn s1 T2 T1 = true ∧ T2 ∈ (s1.tasks T1).fDependents ∧
        GrRenderTask.isClosed s1 T1 = true) ∧
    (T1 ≠ T2 → P ≠ P2 →
      ∃ s1, GrRenderTask.addDependencyProxy
          (GrRenderTask.create (GrRenderTask.create s T1 P) T2 P2) T2 P caps =
            Outcome.done s1 ∧
        (s1.tasks T2).fDependencies = [T1] ∧ (s1.tasks T1).fDependents = [T2] ∧
        GrRenderTask.isClosed s1 T1 = true) := by
  constructor
  · intro hopen hw hne hdep hv
    obtain ⟨s2, _, h, hd, hdt⟩ := addDependencyProxy_other_writer caps hopen hw hne hdep hv
    refine ⟨_, h, ?_, ?_, ?_⟩
    · rw [dependsOn_iff, record_fDependencies, makeClosed_fDependencies]; exact hd
    · rw [record_fDependents, makeClosed_fDependents]; exact hdt
    · rw [isClosed_record]; exact isClosed_makeClosed s2 T1 caps
  · intro hne hP
    have hne2 : T2 ≠ T1 := fun e => hne e.symm
    have t2 : (GrRenderTask.create (GrRenderTask.create s T1 P) T2 P2).tasks T2 =
        { fTarget := some P2,
          fUniqueID := (GrRenderTask.CreateUniqueID (GrRenderTask.create s T1 P).nextID).1,
          fFlags := 0 } := create_tasks_self _ T2 P2
    have t1 : (GrRenderTask.create (GrRenderTask.create s T1 P) T2 P2).tasks T1 =
        { fTarget := some P, fUniqueID := (GrRenderTask.CreateUniqueID s.nextID).1,
          fFlags := 0 } := by
      rw [create_tasks_other _ T2 P2 T1 hne, create_tasks_self]
    have hw : ((GrRenderTask.create (GrRenderTask.create s T1 P) T2 P2).proxies P).fLastRenderTask
        = some T1 := by
      rw [create_lastRenderTask, if_neg hP, create_lastRenderTask, if_pos rfl]
    have hopen : GrRenderTask.isClosed
        (GrRenderTask.create (GrRenderTask.create s T1 P) T2 P2) T2 = false := by
      unfold GrRenderTask.isClosed
      rw [t2]
      simp
    have n1 : T2 ∉ ((GrRenderTask.create (GrRenderTask.create s T1 P) T2 P2).tasks T1).fDependencies := by
      rw [t1]; simp
    have n2 : T1 ∉ ((GrRenderTask.create (GrRenderTask.create s T1 P) T2 P2).tasks T2).fDependencies := by
      rw [t2]; simp
    have hv : GrRenderTask.validate
        (GrRenderTask.create (GrRenderTask.create s T1 P) T2 P2) T2 = true := by
      rw [validate_iff, t2]; simp
    have ha := addDependency_new n1 n2 hv
    refine ⟨_, addDependencyProxy_of_convert (convert_other caps hopen hw hne ha), ?_, ?_, ?_⟩
    · rw [record_fDependencies, makeClosed_fDependencies, link_fDependencies, if_pos rfl, t2]
      rfl
    · rw [record_fDependents, makeClosed_fDependents, link_fDependents, if_pos rfl, t1]
      rfl
    · rw [isClosed_record]; exact isClosed_makeClosed _ T1 caps

/-- Witness of C7: in `Heap.threeTasks` task 2 reads proxy 10, written by task 1; and the
same three-step scenario built on the fresh heap. -/
theorem addDependencyProxy_converts_witness :
    (∃ s1, GrRenderTask.addDependencyProxy Heap.threeTasks 2 10 () = Outcome.done s1 ∧
        GrRenderTask.dependsOn s1 2 1 = true ∧ 2 ∈ (s1.tasks 1).fDependents ∧
        GrRenderTask.isClosed s1 1 = true) ∧
    (∃ s1, GrRenderTask.addDependencyProxy
          (GrRenderTask.create (GrRenderTask.create Heap.fresh 1 10) 2 20) 2 10 () =
            Outcome.done s1 ∧
        (s1.tasks 2).fDependencies = [1] ∧ (s1.tasks 1).fDependents = [2] ∧
        GrRenderTask.isClosed s1 1 = true) :=
  ⟨(addDependencyProxy_converts Heap.threeTasks 1 2 10 20 ()).1
      (by decide) (by decide) (by decide) (by decide) (by decide),
    (addDependencyProxy_converts Heap.fresh 1 2 10 20 ()).2 (by decide) (by decide)⟩

/-- C8. Self-read: for every open task `T` with target `P` whose last writer still is `T`,
`T.addDependency(P, caps)` returns, leaves `T` open, and changes no dependency list, no
dependents list and no flags of any task; so `T` is added neither to its own dependency
list nor to its own dependents list. -/
theorem addDependencyProxy_self_read (s : Heap) (T : TaskPtr) (P : ProxyPtr) (caps : GrCaps)
    (hopen : GrRenderTask.isClosed s T = false)
    (_htarget : (s.tasks T).fTarget = some P)
    (hw : (s.proxies P).fLastRenderTask = some T) :
    ∃ s1, GrRenderTask.addDependencyProxy s T P caps = Outcome.done s1 ∧
      GrRenderTask.isClosed s1 T = false ∧
      (∀ x, (s1.tasks x).fDependencies = (s.tasks x).fDependencies ∧
        (s1.tasks x).fDependents = (s.tasks x).fDependents ∧
        (s1.tasks x).fFlags = (s.tasks x).fFlags) := by
  refine ⟨_, addDependencyProxy_of_convert (convert_self caps hopen hw), ?_, ?_⟩
  · rw [isClosed_record]; exact hopen
  · intro x
    exact ⟨record_fDependencies s T P x, record_fDependents s T P x, record_fFlags s T P x⟩

/-- Witness of C8: task 3 of `Heap.threeTasks` reads its own target, proxy 30. -/
theorem addDependencyProxy_self_read_witness :
    ∃ s1, GrRenderTask.addDependencyProxy Heap.threeTasks 3 30 () = Outcome.done s1 ∧
      GrRenderTask.isClosed s1 3 = false ∧
      (∀ x, (s1.tasks x).fDependencies = (Heap.threeTasks.tasks x).fDependencies ∧
        (s1.tasks x).fDependents = (Heap.threeTasks.tasks x).fDependents ∧
        (s1.tasks x).fFlags = (Heap.threeTasks.tasks x).fFlags) :=
  addDependencyProxy_self_read Heap.threeTasks 3 30 () (by decide) (by decide) (by decide)

/-- C9, counterexample.  In `Heap.readOnce` task 1 is closed and has the dependent task 2;
task 3 is open and unrelated to task 1; proxy 10 has task 1 as last writer.  The call
`task 3 -> addDependency(proxy 10, caps)` is not rejected: it returns, and task 3 has been
appended to the dependents list of task 1. -/
theorem closed_task_new_dependent_counterexample :
    GrRenderTask.isClosed Heap.readOnce 1 = true ∧
      (Heap.readOnce.tasks 1).fDependents = [2] ∧
      GrRenderTask.isClosed Heap.readOnce 3 = false ∧
      GrRenderTask.dependsOn Heap.readOnce 3 1 = false ∧
      GrRenderTask.dependsOn Heap.readOnce 1 3 = false ∧
      (Heap.readOnce.proxies 10).fLastRenderTask = some 1 ∧
      (GrRenderTask.addDependencyProxy Heap.readOnce 3 10 ()).isDone = true ∧
      ((GrRenderTask.addDependencyProxy Heap.readOnce 3 10 ()).heap.tasks 1).fDependents
        = [2, 3] := by
  decide

/-- C9, amended.  A closed task still accepts new dependents: for a task `T1` that is closed
and already has a dependent `T2`, when a third open task `T3`, different from `T1` and with
no edge between `T1` and `T3` in either direction (and passing its own `validate()` check),
calls `T3.addDependency(P, caps)` with `P`'s last writer being `T1`, the call returns, `T3`
is appended to the dependents list of `T1`, `T1` is appended to the dependency list of `T3`,
and `T1` stays closed, with its flags as they were. -/
theorem closed_task_accepts_new_dependent (s : Heap) (T1 T2 T3 : TaskPtr) (P : ProxyPtr)
    (caps : GrCaps) (hclosed : GrRenderTask.isClosed s T1 = true)
    (_hT2 : T2 ∈ (s.tasks T1).fDependents)
    (hopen : GrRenderTask.isClosed s T3 = false) (hne : T1 ≠ T3)
    (h13 : GrRenderTask.dependsOn s T1 T3 = false)
    (h31 : GrRenderTask.dependsOn s T3 T1 = false)
    (hv : GrRenderTask.validate s T3 = true)
    (hw : (s.proxies P).fLastRenderTask = some T1) :
    ∃ s1, GrRenderTask.addDependencyProxy s T3 P caps = Outcome.done s1 ∧
      (s1.tasks T1).fDependents = (s.tasks T1).fDependents ++ [T3] ∧
      (s1.tasks T3).fDependencies = (s.tasks T3).fDependencies ++ [T1] ∧
      GrRenderTask.isClosed s1 T1 = true ∧
      (s1.tasks T1).fFlags = (s.tasks T1).fFlags := by
  have n1 : T3 ∉ (s.tasks T1).fDependencies := (findLoop_false_iff T3 _).1 h13
  have n2 : T1 ∉ (s.tasks T3).fDependencies := (findLoop_false_iff T1 _).1 h31
  have ha := addDependency_new n1 n2 hv
  have hcl : GrRenderTask.isClosed (GrRenderTask.addDependency.link s T3 T1) T1 = true := by
    rw [isClosed_link]; exact hclosed
  refine ⟨_, addDependencyProxy_of_convert (convert_other caps hopen hw hne ha), ?_, ?_, ?_, ?_⟩
  · rw [record_fDependents, makeClosed_fDependents, link_fDependents, if_pos rfl]
  · rw [record_fDependencies, makeClosed_fDependencies, link_fDependencies, if_pos rfl]
  · rw [isClosed_record]; exact isClosed_makeClosed _ T1 caps
  · rw [record_fFlags, makeClosed_of_closed _ T1 caps hcl, link_fFlags]

/-- Witness of the amended C9: `Heap.readOnce`, where task 1 is closed with dependent
task 2, and task 3 reads proxy 10. -/
theorem closed_task_accepts_new_dependent_witness :
    ∃ s1, GrRenderTask.addDependencyProxy Heap.readOnce 3 10 () = Outcome.done s1 ∧
      (s1.tasks 1).fDependents = (Heap.readOnce.tasks 1).fDependents ++ [3] ∧
      (s1.tasks 3).fDependencies = (Heap.readOnce.tasks 3).fDependencies ++ [1] ∧
      GrRenderTask.isClosed s1 1 = true ∧
      (s1.tasks 1).fFlags = (Heap.readOnce.tasks 1).fFlags :=
  closed_task_accepts_new_dependent Heap.readOnce 1 2 3 10 () (by decide) (by decide)
    (by decide) (by decide) (by decide) (by decide) (by decide) (by decide)

/-- C10, counterexample.  In `Heap.readOnce` task 1 is closed and proxy 99 has no last
writer; `task 1 -> addDependency(proxy 99, caps)` does not fault. -/
theorem closed_task_proxy_dependency_counterexample :
    GrRenderTask.isClosed Heap.readOnce 1 = true ∧
      (Heap.readOnce.proxies 99).fLastRenderTask = none ∧
      (GrRenderTask.addDependencyProxy Heap.readOnce 1 99 ()).isDone = true := by
  decide

/-- C10, amended.  For every closed task `T` and every proxy `P` that has a last-writer
task, `T.addDependency(P, caps)` faults, with the heap as it was; when `P` has no last
writer, the call returns. -/
theorem closed_task_proxy_dependency_faults (s : Heap) (T : TaskPtr) (P : ProxyPtr)
    (caps : GrCaps) (hclosed : GrRenderTask.isClosed s T = true) :
    (∀ W, (s.proxies P).fLastRenderTask = some W →
      GrRenderTask.addDependencyProxy s T P caps = Outcome.fault s) ∧
    ((s.proxies P).fLastRenderTask = none →
      (GrRenderTask.addDependencyProxy s T P caps).isDone = true) := by
  constructor
  · intro W hw
    exact addDependencyProxy_of_convert_fault (convert_closed caps hclosed hw)
  · intro hw
    rw [addDependencyProxy_of_convert (convert_no_writer T caps hw)]
    rfl

/-- Witness of the amended C10: the closed task 1 of `Heap.readOnce` reads proxy 20, whose
last writer is task 2, and proxy 99, which has none. -/
theorem closed_task_proxy_dependency_faults_witness :
    GrRenderTask.isClosed Heap.readOnce 1 = true ∧
      (Heap.readOnce.proxies 20).fLastRenderTask = some 2 ∧
      GrRenderTask.addDependencyProxy Heap.readOnce 1 20 () = Outcome.fault Heap.readOnce ∧
      (GrRenderTask.addDependencyProxy Heap.readOnce 1 99 ()).isDone = true :=
  ⟨by decide, by decide,
    (closed_task_proxy_dependency_faults Heap.readOnce 1 20 () (by decide)).1 2 (by decide),
    (closed_task_proxy_dependency_faults Heap.readOnce 1 99 () (by decide)).2 (by decide)⟩

/-! ### The deferred-proxy list (C11) -/

theorem makeClosed_fDeferredProxies (s : Heap) (t : TaskPtr) (c : GrCaps) (x : TaskPtr) :
    ((GrRenderTask.makeClosed s t c).tasks x).fDeferredProxies =
      (s.tasks x).fDeferredProxies := by
  unfold GrRenderTask.makeClosed
  split
  · rfl
  · rw [setTask_tasks]
    by_cases hx : x = t
    · subst hx; simp
    · simp [hx]

theorem makeClosed_proxies (s : Heap) (t : TaskPtr) (c : GrCaps) :
    (GrRenderTask.makeClosed s t c).proxies = s.proxies := by
  unfold GrRenderTask.makeClosed
  split <;> rfl

/-- The conversion step writes no proxy and no deferred-proxy list. -/
theorem convert_frame {s s0 : Heap} {t : TaskPtr} {p : ProxyPtr} {c : GrCaps}
    (h : GrRenderTask.addDependencyProxy.convert s t p c = Outcome.done s0) :
    s0.proxies = s.proxies ∧
      ∀ x, (s0.tasks x).fDeferredProxies = (s.tasks x).fDeferredProxies := by
  rcases convert_done h with e | ⟨w, s2, _, _, _, ha, e⟩
  · rw [e]; exact ⟨rfl, fun _ => rfl⟩
  · rcases addDependency_done ha with ⟨e2, _, _⟩ | ⟨_, _, e2⟩
    · rw [e, e2]
      exact ⟨makeClosed_proxies s w c, fun x => makeClosed_fDeferredProxies s w c x⟩
    · rw [e, e2]
      refine ⟨by rw [makeClosed_proxies, link_proxies], fun x => ?_⟩
      rw [makeClosed_fDeferredProxies, link_fDeferredProxies]

theorem record_fDeferredProxies_deferred {s : Heap} (t : TaskPtr) {p : ProxyPtr}
    {tp : GrTextureProxy} (h : (s.proxies p).asTextureProxy = some tp)
    (hd : tp.isDeferred = true) :
    ((GrRenderTask.addDependencyProxy.record s t p).tasks t).fDeferredProxies =
      (s.tasks t).fDeferredProxies ++ [p] := by
  unfold GrRenderTask.addDependencyProxy.record
  rw [h]
  simp [hd, setTask_tasks]

theorem record_not_texture {s : Heap} (t : TaskPtr) {p : ProxyPtr}
    (h : (s.proxies p).asTextureProxy = none) :
    GrRenderTask.addDependencyProxy.record s t p = s := by
  unfold GrRenderTask.addDependencyProxy.record
  rw [h]

theorem record_not_deferred {s : Heap} (t : TaskPtr) {p : ProxyPtr} {tp : GrTextureProxy}
    (h : (s.proxies p).asTextureProxy = some tp) (hd : tp.isDeferred = false) :
    GrRenderTask.addDependencyProxy.record s t p = s := by
  unfold GrRenderTask.addDependencyProxy.record
  rw [h]
  simp [hd]

/-- C11. Deferred-resource recording: for every call `T.addDependency(P, caps)` that
returns, whatever the last writer of `P` is (none, `T` itself, or another task): when `P` is
a texture proxy that is deferred, the deferred-proxy list of `T` is its old value with `P`
appended; when `P` is not a texture proxy, or is one that is not deferred, the
deferred-proxy list of `T` is unchanged. -/
theorem addDependencyProxy_records_deferred (s s1 : Heap) (T : TaskPtr) (P : ProxyPtr)
    (caps : GrCaps) (h : GrRenderTask.addDependencyProxy s T P caps = Outcome.done s1) :
    (∀ tp, (s.proxies P).asTextureProxy = some tp → tp.isDeferred = true →
      (s1.tasks T).fDeferredProxies = (s.tasks T).fDeferredProxies ++ [P]) ∧
    ((s.proxies P).asTextureProxy = none →
      (s1.tasks T).fDeferredProxies = (s.tasks T).fDeferredProxies) ∧
    (∀ tp, (s.proxies P).asTextureProxy = some tp → tp.isDeferred = false →
      (s1.tasks T).fDeferredProxies = (s.tasks T).fDeferredProxies) := by
  obtain ⟨s0, hc, e⟩ := addDependencyProxy_done h
  obtain ⟨hp, hd⟩ := convert_frame hc
  refine ⟨?_, ?_, ?_⟩
  · intro tp htp hdef
    rw [e, record_fDeferredProxies_deferred T (by rw [hp]; exact htp) hdef, hd]
  · intro htp
    rw [e, record_not_texture T (by rw [hp]; exact htp), hd]
  · intro tp htp hdef
    rw [e, record_not_deferred T (by rw [hp]; exact htp) hdef, hd]

/-- Witness of C11, in `Heap.textures`: task 3 reads the deferred texture proxy 40 (no last
writer), then the texture proxy 41 that is not deferred; task 2 reads proxy 10, which is not
a texture proxy and was last written by task 1. -/
theorem addDependencyProxy_records_deferred_witness :
    ((GrRenderTask.addDependencyProxy Heap.textures 3 40 ()).heap.tasks 3).fDeferredProxies =
        (Heap.textures.tasks 3).fDeferredProxies ++ [40] ∧
      ((GrRenderTask.addDependencyProxy Heap.textures 3 41 ()).heap.tasks 3).fDeferredProxies =
        (Heap.textures.tasks 3).fDeferredProxies ∧
      ((GrRenderTask.addDependencyProxy Heap.textures 2 10 ()).heap.tasks 2).fDeferredProxies =
        (Heap.textures.tasks 2).fDeferredProxies :=
  ⟨(addDependencyProxy_records_deferred Heap.textures _ 3 40 () rfl).1
      { isDeferred := true } (by decide) rfl,
    (addDependencyProxy_records_deferred Heap.textures _ 3 41 () rfl).2.2
      { isDeferred := false } (by decide) rfl,
    (addDependencyProxy_records_deferred Heap.textures _ 2 10 () rfl).2.1 (by decide)⟩

/-! ### Closing the dependents (C12) -/

/-- One round of the loop of `closeThoseWhoDependOnMe`. -/
theorem closeRound_fDependents (s : Heap) (d : TaskPtr) (c : GrCaps) (x : TaskPtr) :
    ((if GrRenderTask.isClosed s d then s else GrRenderTask.makeClosed s d c).tasks x).fDependents
      = (s.tasks x).fDependents := by
  split
  · rfl
  · exact makeClosed_fDependents s d c x

theorem closeRound_isClosed_self (s : Heap) (d : TaskPtr) (c : GrCaps) :
    GrRenderTask.isClosed
      (if GrRenderTask.isClosed s d then s else GrRenderTask.makeClosed s d c) d = true := by
  by_cases h : GrRenderTask.isClosed s d = true
  · rw [if_pos h]; exact h
  · rw [if_neg h]; exact isClosed_makeClosed s d c

theorem isClosed_makeClosed_mono (s : Heap) (t : TaskPtr) (c : GrCaps) (x : TaskPtr)
    (h : GrRenderTask.isClosed s x = true) :
    GrRenderTask.isClosed (GrRenderTask.makeClosed s t c) x = true := by
  by_cases hx : x = t
  · subst hx; exact isClosed_makeClosed s x c
  · unfold GrRenderTask.isClosed at h ⊢
    rw [makeClosed_tasks_other s t c x hx]
    exact h

theorem closeRound_isClosed_mono (s : Heap) (d : TaskPtr) (c : GrCaps) (x : TaskPtr)
    (h : GrRenderTask.isClosed s x = true) :
    GrRenderTask.isClosed
      (if GrRenderTask.isClosed s d then s else GrRenderTask.makeClosed s d c) x = true := by
  split
  · exact h
  · exact isClosed_makeClosed_mono s d c x h

/-- The loop of `closeThoseWhoDependOnMe` runs one round of `closeEach` for each entry of
the dependents array from index `i` on, as far as its rounds reach. -/
theorem closeLoop_eq (this : TaskPtr) (c : GrCaps) (rounds i : Nat) (s : Heap) :
    GrRenderTask.closeThoseWhoDependOnMe.loop this c rounds i s =
      closeEach c (((s.tasks this).fDependents.drop i).take rounds) s := by
  induction rounds generalizing i s with
  | zero => simp [GrRenderTask.closeThoseWhoDependOnMe.loop, closeEach]
  | succ n ih =>
    unfold GrRenderTask.closeThoseWhoDependOnMe.loop
    cases hd : (s.tasks this).fDependents[i]? with
    | none =>
      have hlen : (s.tasks this).fDependents.length ≤ i := List.getElem?_eq_none_iff.1 hd
      simp [List.drop_eq_nil_of_le hlen, closeEach]
    | some d =>
      obtain ⟨hlt, hget⟩ := List.getElem?_eq_some_iff.1 hd
      simp only
      rw [ih, closeRound_fDependents, List.drop_eq_getElem_cons hlt, hget, List.take_succ_cons]
      rfl

theorem closeThoseWhoDependOnMe_eq (s : Heap) (this : TaskPtr) (c : GrCaps) :
    GrRenderTask.closeThoseWhoDependOnMe s this c =
      closeEach c (s.tasks this).fDependents s := by
  unfold GrRenderTask.closeThoseWhoDependOnMe
  rw [closeLoop_eq]
  simp

/-- The rounds given to the loop of `closeThoseWhoDependOnMe` are enough: more rounds give
the same heap, so the loop has left by its exit test `i < fDependents.count()`. -/
theorem closeThoseWhoDependOnMe_rounds (s : Heap) (this : TaskPtr) (c : GrCaps) (more : Nat) :
    GrRenderTask.closeThoseWhoDependOnMe.loop this c
        ((s.tasks this).fDependents.length + more) 0 s =
      GrRenderTask.closeThoseWhoDependOnMe s this c := by
  rw [closeThoseWhoDependOnMe_eq, closeLoop_eq, List.drop_zero,
    List.take_of_length_le (Nat.le_add_right _ _)]

theorem closeEach_fDependents (c : GrCaps) (l : List TaskPtr) (s : Heap) (x : TaskPtr) :
    ((closeEach c l s).tasks x).fDependents = (s.tasks x).fDependents := by
  induction l generalizing s with
  | nil => rfl
  | cons d rest ih =>
    unfold closeEach
    rw [ih, closeRound_fDependents]

theorem closeEach_isClosed_mono (c : GrCaps) (l : List TaskPtr) (s : Heap) (x : TaskPtr)
    (h : GrRenderTask.isClosed s x = true) :
    GrRenderTask.isClosed (closeEach c l s) x = true := by
  induction l generalizing s with
  | nil => exact h
  | cons d rest ih =>
    unfold closeEach
    exact ih _ (closeRound_isClosed_mono s d c x h)

theorem closeEach_isClosed (c : GrCaps) (l : List TaskPtr) (s : Heap) (x : TaskPtr)
    (h : x ∈ l) : GrRenderTask.isClosed (closeEach c l s) x = true := by
  induction l generalizing s with
  | nil => simp at h
  | cons d rest ih =>
    unfold closeEach
    rcases List.mem_cons.1 h with e | h1
    · subst e
      exact closeEach_isClosed_mono c rest _ x (closeRound_isClosed_self s x c)
    · exact ih _ h1

/-- C12. Closure propagation: for every task `T`, after `T.closeThoseWhoDependOnMe(caps)`
every task in the dependents list of `T` is closed; the list is the same before and after
the call. -/
theorem closeThoseWhoDependOnMe_closes_dependents (s : Heap) (T : TaskPtr) (caps : GrCaps)
    (d : TaskPtr)
    (h : d ∈ ((GrRenderTask.closeThoseWhoDependOnMe s T caps).tasks T).fDependents) :
    GrRenderTask.isClosed (GrRenderTask.closeThoseWhoDependOnMe s T caps) d = true ∧
      ((GrRenderTask.closeThoseWhoDependOnMe s T caps).tasks T).fDependents =
        (s.tasks T).fDependents := by
  rw [closeThoseWhoDependOnMe_eq] at h ⊢
  rw [closeEach_fDependents] at h
  exact ⟨closeEach_isClosed caps _ s d h, closeEach_fDependents caps _ s T⟩

/-- Witness of C12: in `Heap.readOnce` task 1 has the open dependent task 2. -/
theorem closeThoseWhoDependOnMe_closes_dependents_witness :
    GrRenderTask.isClosed Heap.readOnce 2 = false ∧
      GrRenderTask.isClosed (GrRenderTask.closeThoseWhoDependOnMe Heap.readOnce 1 ()) 2 = true ∧
      ((GrRenderTask.closeThoseWhoDependOnMe Heap.readOnce 1 ()).tasks 1).fDependents =
        (Heap.readOnce.tasks 1).fDependents :=
  ⟨by decide,
    closeThoseWhoDependOnMe_closes_dependents Heap.readOnce 1 () 2 (by decide)⟩

/-! ### Instantiation (C13, C14) -/

theorem isInstantiated_not_instantiated {s : Heap} {T : TaskPtr} {P : ProxyPtr}
    (hT : (s.tasks T).fTarget = some P) (h : (s.proxies P).isInstantiated = false) :
    GrRenderTask.isInstantiated s T = Answer.value false := by
  unfold GrRenderTask.isInstantiated
  rw [hT]
  simp [h]

theorem isInstantiated_no_stencil {s : Heap} {T : TaskPtr} {P : ProxyPtr} {N : Int}
    (hT : (s.tasks T).fTarget = some P) (h : (s.proxies P).isInstantiated = true)
    (hN : (s.proxies P).asRenderTargetProxy = some N) (hN0 : N ≠ 0)
    (hrt : (s.proxies P).peekRenderTarget = some none) :
    GrRenderTask.isInstantiated s T = Answer.value false := by
  unfold GrRenderTask.isInstantiated
  rw [hT]
  simp [h, hN, hN0, hrt]

theorem isInstantiated_thin_stencil {s : Heap} {T : TaskPtr} {P : ProxyPtr} {N k : Int}
    (hT : (s.tasks T).fTarget = some P) (h : (s.proxies P).isInstantiated = true)
    (hN : (s.proxies P).asRenderTargetProxy = some N) (hN0 : N ≠ 0)
    (hrt : (s.proxies P).peekRenderTarget = some (some k)) (hk : k < N) :
    GrRenderTask.isInstantiated s T = Answer.fault := by
  unfold GrRenderTask.isInstantiated
  rw [hT]
  have hk2 : ¬ N ≤ k := by omega
  simp [h, hN, hN0, hrt, hk2]

/-- C13, counterexample.  The target of task 0 in `Heap.thinStencil` is instantiated, asks
for 4 stencil samples, has a stencil attachment (of 1 sample) and a surface that was not
destroyed: the reference definition gives true, but `isInstantiated` does not return true,
nor any value: the assertion of line 157 fails. -/
theorem isInstantiated_reference_counterexample :
    isInstantiatedReference Heap.thinStencil 0 = true ∧
      GrRenderTask.isInstantiated Heap.thinStencil 0 ≠ Answer.value true ∧
      GrRenderTask.isInstantiated Heap.thinStencil 0 = Answer.fault := by
  decide

/-- C13, amended.  `isInstantiated` equals its reference definition wherever its own
assertions hold (the target is not null; when the instantiated target requires stencil
samples the render target is there, and a stencil attachment, if there is one, has at least
that many samples): it then returns true exactly when the target proxy is instantiated, a
required stencil attachment is there, and the surface has not been destroyed, and false in
every other case.  Every value it returns is the reference value; where an assertion fails
it returns no value. -/
theorem isInstantiated_matches_reference (s : Heap) (T : TaskPtr) :
    (isInstantiatedAsserts s T = true →
      GrRenderTask.isInstantiated s T = Answer.value (isInstantiatedReference s T)) ∧
    (∀ b, GrRenderTask.isInstantiated s T = Answer.value b →
      b = isInstantiatedReference s T) ∧
    (isInstantiatedAsserts s T = false → GrRenderTask.isInstantiated s T = Answer.fault) := by
  unfold isInstantiatedAsserts GrRenderTask.isInstantiated isInstantiatedReference
    GrSurfaceProxy.requiresStencil GrSurfaceProxy.hasStencilAttachment
  cases (s.tasks T).fTarget with
  | none => simp
  | some P =>
    dsimp only
    generalize s.proxies P = proxy
    obtain ⟨last, tex, inst, rtp, rt, destroyed⟩ := proxy
    cases inst
    · simp
    · cases rtp with
      | none => cases destroyed <;> simp
      | some N =>
        by_cases hN : N = 0
        · subst hN
          cases destroyed <;> simp
        · cases rt with
          | none => simp [hN]
          | some st =>
            cases st with
            | none => simp [hN]
            | some k =>
              by_cases hk : N ≤ k
              · cases destroyed <;> simp [hN, hk]
              · simp [hN, hk]

/-- Witness of the amended C13: task 0 of `Heap.fullStencil`, whose assertions hold, and
task 0 of `Heap.thinStencil`, where the assertion of line 157 fails. -/
theorem isInstantiated_matches_reference_witness :
    GrRenderTask.isInstantiated Heap.fullStencil 0 =
        Answer.value (isInstantiatedReference Heap.fullStencil 0) ∧
      isInstantiatedReference Heap.fullStencil 0 = true ∧
      GrRenderTask.isInstantiated Heap.thinStencil 0 = Answer.fault :=
  ⟨(isInstantiated_matches_reference Heap.fullStencil 0).1 (by decide), by decide,
    (isInstantiated_matches_reference Heap.thinStencil 0).2.2 (by decide)⟩

/-- C14, counterexample.  The target of task 0 in `Heap.thinStencil` is instantiated and
asks for 4 stencil samples; the stencil attachment has 1 sample.  `isInstantiated` does not
return false: the assertion of line 157 fails. -/
theorem isInstantiated_thin_stencil_counterexample :
    (Heap.thinStencil.tasks 0).fTarget = some 0 ∧
      (Heap.thinStencil.proxies 0).isInstantiated = true ∧
      (Heap.thinStencil.proxies 0).asRenderTargetProxy = some 4 ∧
      (Heap.thinStencil.proxies 0).peekRenderTarget = some (some 1) ∧
      GrRenderTask.isInstantiated Heap.thinStencil 0 = Answer.fault ∧
      GrRenderTask.isInstantiated Heap.thinStencil 0 ≠ Answer.value false := by
  decide

/-- C14, amended.  `isInstantiated` returns false, and does not fault, when the target is
not instantiated and when the instantiated target requires `N ≠ 0` stencil samples and the
render target has no stencil attachment; but when the stencil attachment exists with fewer
than `N` samples, `N > 0`, the call does not return false: it faults on the assertion of
line 157. -/
theorem isInstantiated_stencil_cases (s : Heap) (T : TaskPtr) (P : ProxyPtr)
    (hT : (s.tasks T).fTarget = some P) :
    ((s.proxies P).isInstantiated = false →
      GrRenderTask.isInstantiated s T = Answer.value false) ∧
    (∀ N : Int, (s.proxies P).isInstantiated = true →
      (s.proxies P).asRenderTargetProxy = some N → N ≠ 0 →
      (s.proxies P).peekRenderTarget = some none →
      GrRenderTask.isInstantiated s T = Answer.value false) ∧
    (∀ N k : Int, (s.proxies P).isInstantiated = true →
      (s.proxies P).asRenderTargetProxy = some N → 0 < N →
      (s.proxies P).peekRenderTarget = some (some k) → k < N →
      GrRenderTask.isInstantiated s T = Answer.fault) := by
  refine ⟨?_, ?_, ?_⟩
  · intro h
    exact isInstantiated_not_instantiated hT h
  · intro N h hN hN0 hrt
    exact isInstantiated_no_stencil hT h hN hN0 hrt
  · intro N k h hN hpos hrt hk
    exact isInstantiated_thin_stencil hT h hN (by omega) hrt hk

/-- Witness of the amended C14: task 1 of `Heap.threeTasks`, whose target is not
instantiated, and task 0 of `Heap.thinStencil`. -/
theorem isInstantiated_stencil_cases_witness :
    GrRenderTask.isInstantiated Heap.threeTasks 1 = Answer.value false ∧
      GrRenderTask.isInstantiated Heap.thinStencil 0 = Answer.fault :=
  ⟨(isInstantiated_stencil_cases Heap.threeTasks 1 10 (by decide)).1 (by decide),
    (isInstantiated_stencil_cases Heap.thinStencil 0 0 (by decide)).2.2 4 1
      (by decide) (by decide) (by decide) (by decide) (by decide)⟩

/-! ### Preparation (C15) -/

theorem prepare_loop_eq (l : List ProxyPtr) (calls : List PrepareCall) :
    GrRenderTask.prepare.loop l calls = calls ++ l.map PrepareCall.scheduleUpload := by
  induction l generalizing calls with
  | nil => simp [GrRenderTask.prepare.loop]
  | cons p rest ih =>
    unfold GrRenderTask.prepare.loop
    rw [ih]
    simp

theorem scheduleUpload_injective : Function.Injective PrepareCall.scheduleUpload := by
  intro a b h
  injection h

/-- C15. `prepare` sequencing: the calls made by `prepare` are one `scheduleUpload` for each
entry of the deferred-proxy list, in list order, followed by one `onPrepare`.  So every proxy
is scheduled exactly as often as it occurs in the list, `onPrepare` is called exactly once,
after all uploads, and with an empty list only `onPrepare` runs. -/
theorem prepare_sequence (s : Heap) (T : TaskPtr) :
    GrRenderTask.prepare s T =
        (s.tasks T).fDeferredProxies.map PrepareCall.scheduleUpload ++
          [PrepareCall.onPrepare T] ∧
      (∀ p, List.count (PrepareCall.scheduleUpload p) (GrRenderTask.prepare s T) =
        List.count p (s.tasks T).fDeferredProxies) ∧
      (∀ t, List.count (PrepareCall.onPrepare t) (GrRenderTask.prepare s T) =
        if t = T then 1 else 0) ∧
      (GrRenderTask.prepare s T).getLast? = some (PrepareCall.onPrepare T) ∧
      ((s.tasks T).fDeferredProxies = [] →
        GrRenderTask.prepare s T = [PrepareCall.onPrepare T]) := by
  have h : GrRenderTask.prepare s T =
      (s.tasks T).fDeferredProxies.map PrepareCall.scheduleUpload ++
        [PrepareCall.onPrepare T] := by
    unfold GrRenderTask.prepare
    rw [prepare_loop_eq]
    simp
  refine ⟨h, ?_, ?_, ?_, ?_⟩
  · intro p
    rw [h, List.count_append, List.count_map_of_injective _ _ scheduleUpload_injective]
    simp
  · intro t
    rw [h, List.count_append]
    have h0 : List.count (PrepareCall.onPrepare t)
        ((s.tasks T).fDeferredProxies.map PrepareCall.scheduleUpload) = 0 := by
      rw [List.count_eq_zero]
      intro hm
      obtain ⟨p, _, hp⟩ := List.mem_map.1 hm
      cases hp
    rw [h0]
    by_cases e : t = T
    · subst e; simp
    · have e2 : ¬ T = t := fun x => e x.symm
      simp [e, e2]
  · rw [h]
    simp
  · intro he
    rw [h, he]
    rfl

/-- Witness of C15: task 1 of `Heap.threeTasks` has no deferred proxy. -/
theorem prepare_sequence_witness :
    GrRenderTask.prepare Heap.threeTasks 1 = [PrepareCall.onPrepare 1] :=
  (prepare_sequence Heap.threeTasks 1).2.2.2.2 (by decide)

/-! ### Identifiers (C16, C17) -/

theorem CreateUniqueID_of_ne_zero {n : Nat} (h : n ≠ 0) :
    GrRenderTask.CreateUniqueID n = (n, (n + 1) % 2 ^ 32) := by
  rw [GrRenderTask.CreateUniqueID]
  simp [SK_InvalidUniqueID, h]

theorem CreateUniqueID_zero : GrRenderTask.CreateUniqueID 0 = (1, 2) := by
  rw [GrRenderTask.CreateUniqueID]
  simp only [SK_InvalidUniqueID, dite_true]
  rw [CreateUniqueID_of_ne_zero (by norm_num)]
  norm_num

/-- C16. `CreateUniqueID` never returns `SK_InvalidUniqueID`: whatever the counter holds,
also the 0 it holds after wrapping around, the identifier returned is not 0. -/
theorem CreateUniqueID_never_invalid (nextID : Nat) :
    (GrRenderTask.CreateUniqueID nextID).1 ≠ SK_InvalidUniqueID := by
  by_cases h : nextID = 0
  · subst h
    rw [CreateUniqueID_zero]
    decide
  · rw [CreateUniqueID_of_ne_zero h]
    exact h

theorem calls_eq_range (k n : Nat) (hn : 0 < n) (h : n + k ≤ 2 ^ 32) :
    GrRenderTask.CreateUniqueID.calls k n = List.range' n k := by
  induction k generalizing n with
  | zero => rfl
  | succ k ih =>
    unfold GrRenderTask.CreateUniqueID.calls
    rw [CreateUniqueID_of_ne_zero (by omega), List.range'_succ]
    cases k with
    | zero => rfl
    | succ j =>
      have e : (n + 1) % 2 ^ 32 = n + 1 := by omega
      simp only [e]
      rw [ih (n + 1) (by omega) (by omega)]

theorem counterAfter_eq (k n : Nat) (hn : 0 < n) (hlt : n < 2 ^ 32) (h : n + k ≤ 2 ^ 32) :
    GrRenderTask.CreateUniqueID.counterAfter k n = (n + k) % 2 ^ 32 := by
  induction k generalizing n with
  | zero =>
    unfold GrRenderTask.CreateUniqueID.counterAfter
    omega
  | succ k ih =>
    unfold GrRenderTask.CreateUniqueID.counterAfter
    rw [CreateUniqueID_of_ne_zero (by omega)]
    cases k with
    | zero =>
      unfold GrRenderTask.CreateUniqueID.counterAfter
      rfl
    | succ j =>
      have e : (n + 1) % 2 ^ 32 = n + 1 := by omega
      simp only [e]
      rw [ih (n + 1) (by omega) (by omega) (by omega)]
      congr 1
      omega

theorem calls_add (a b n : Nat) :
    GrRenderTask.CreateUniqueID.calls (a + b) n =
      GrRenderTask.CreateUniqueID.calls a n ++
        GrRenderTask.CreateUniqueID.calls b (GrRenderTask.CreateUniqueID.counterAfter a n) := by
  induction a generalizing n with
  | zero =>
    rw [Nat.zero_add]
    rfl
  | succ a ih =>
    rw [Nat.add_right_comm]
    simp only [GrRenderTask.CreateUniqueID.calls, GrRenderTask.CreateUniqueID.counterAfter, ih,
      List.cons_append]

theorem range_then_one_not_nodup (N : Nat) (h : 0 < N) :
    ¬ (List.range' 1 N ++ [1]).Nodup := by
  intro hn
  have hd := (List.nodup_append.1 hn).2.2
  have h1 : 1 ∈ List.range' 1 N := List.mem_range'_1.2 ⟨Nat.le_refl 1, by omega⟩
  exact hd h1 (List.mem_singleton.2 rfl)

/-- C17, counterexample.  Of `2 ^ 32` calls in a row, the first made with the counter at its
initial value 1, the first `2 ^ 32 - 1` return 1, 2, ..., 4294967295 and the last one
returns 1 again: it is not greater than the one before, and identifier 1 is used twice. -/
theorem CreateUniqueID_reuse_counterexample :
    GrRenderTask.CreateUniqueID.calls (4294967295 + 1) 1 =
        List.range' 1 4294967295 ++ [1] ∧
      ¬ (GrRenderTask.CreateUniqueID.calls (4294967295 + 1) 1).Nodup := by
  have h : GrRenderTask.CreateUniqueID.calls (4294967295 + 1) 1 =
      List.range' 1 4294967295 ++ [1] := by
    rw [calls_add, calls_eq_range 4294967295 1 (by norm_num) (by norm_num),
      counterAfter_eq 4294967295 1 (by norm_num) (by norm_num) (by norm_num)]
    have e : (1 + 4294967295) % 2 ^ 32 = 0 := by norm_num
    rw [e]
    unfold GrRenderTask.CreateUniqueID.calls GrRenderTask.CreateUniqueID.calls
    rw [CreateUniqueID_zero]
  refine ⟨h, ?_⟩
  rw [h]
  exact range_then_one_not_nodup 4294967295 (by norm_num)

/-- C17, amended.  Task identifiers start at 1 and are assigned in increasing order without
reuse until the 32-bit counter wraps: for every `k ≤ 2 ^ 32 - 1`, the first `k` calls of
`CreateUniqueID` return 1, 2, ..., `k`, each one greater than all the ones before. -/
theorem CreateUniqueID_first_calls (k : Nat) (hk : k ≤ 2 ^ 32 - 1) :
    GrRenderTask.CreateUniqueID.calls k 1 = List.range' 1 k ∧
      (GrRenderTask.CreateUniqueID.calls k 1).Pairwise (fun a b => a < b) := by
  have h := calls_eq_range k 1 (by norm_num) (by omega)
  refine ⟨h, ?_⟩
  rw [h]
  exact List.pairwise_lt_range' 1 k

/-- Witness of the amended C17: the first three calls. -/
theorem CreateUniqueID_first_calls_witness :
    GrRenderTask.CreateUniqueID.calls 3 1 = List.range' 1 3 ∧
      (GrRenderTask.CreateUniqueID.calls 3 1).Pairwise (fun a b => a < b) :=
  CreateUniqueID_first_calls 3 (by norm_num)

/-! ### Construction and destruction (C18 to C20) -/

theorem destroy_tasks (s : Heap) (t : TaskPtr) : (GrRenderTask.destroy s t).tasks = s.tasks := by
  unfold GrRenderTask.destroy
  split
  · rfl
  · split <;> rfl

theorem destroy_proxies_other {s : Heap} {t : TaskPtr} {p : ProxyPtr}
    (ht : (s.tasks t).fTarget = some p) (q : ProxyPtr) (hq : q ≠ p) :
    (GrRenderTask.destroy s t).proxies q = s.proxies q := by
  unfold GrRenderTask.destroy
  rw [ht]
  dsimp only
  split
  · simp [Heap.setProxy, hq]
  · rfl

theorem destroy_lastRenderTask_current {s : Heap} {t : TaskPtr} {p : ProxyPtr}
    (ht : (s.tasks t).fTarget = some p) (h : (s.proxies p).fLastRenderTask = some t) :
    ((GrRenderTask.destroy s t).proxies p).fLastRenderTask = none := by
  unfold GrRenderTask.destroy
  rw [ht]
  simp [h, Heap.setProxy]

theorem destroy_not_current {s : Heap} {t : TaskPtr} {p : ProxyPtr}
    (ht : (s.tasks t).fTarget = some p) (h : (s.proxies p).fLastRenderTask ≠ some t) :
    GrRenderTask.destroy s t = s := by
  unfold GrRenderTask.destroy
  rw [ht]
  simp [h]

theorem destroy_no_target {s : Heap} {t : TaskPtr} (ht : (s.tasks t).fTarget = none) :
    GrRenderTask.destroy s t = s := by
  unfold GrRenderTask.destroy
  rw [ht]

/-- A last writer that survives the destruction of `t` was the last writer before, and is
not `t` when `t` targets that proxy. -/
theorem destroy_lastRenderTask_some {s : Heap} {t u : TaskPtr} {q : ProxyPtr}
    (h : ((GrRenderTask.destroy s t).proxies q).fLastRenderTask = some u) :
    (s.proxies q).fLastRenderTask = some u ∧ ((s.tasks t).fTarget = some q → u ≠ t) := by
  cases ht : (s.tasks t).fTarget with
  | none =>
    rw [destroy_no_target ht] at h
    exact ⟨h, fun e => by cases e⟩
  | some p =>
    by_cases hc : (s.proxies p).fLastRenderTask = some t
    · by_cases hq : q = p
      · subst hq
        rw [destroy_lastRenderTask_current ht hc] at h
        cases h
      · rw [destroy_proxies_other ht q hq] at h
        refine ⟨h, fun e => ?_⟩
        injection e with e
        exact absurd e.symm hq
    · rw [destroy_not_current ht hc] at h
      refine ⟨h, fun e hu => ?_⟩
      injection e with e
      subst e
      subst hu
      exact hc h

/-- C18. Construction registers the task as last writer: for every proxy `P`, right after
a task `T` is constructed with target `P`, the last writer of `P` is `T`, the target of `T`
is `P`, the dependency, dependents and deferred-proxy lists of `T` are empty and its flags
are 0, so `T` is open; and when `T` and then `T2` are constructed on the same `P`, the last
writer of `P` is `T2`. -/
theorem create_registers_last_writer (s : Heap) (T T2 : TaskPtr) (P : ProxyPtr) :
    ((GrRenderTask.create s T P).proxies P).fLastRenderTask = some T ∧
      ((GrRenderTask.create s T P).tasks T).fTarget = some P ∧
      ((GrRenderTask.create s T P).tasks T).fDependencies = [] ∧
      ((GrRenderTask.create s T P).tasks T).fDependents = [] ∧
      ((GrRenderTask.create s T P).tasks T).fDeferredProxies = [] ∧
      ((GrRenderTask.create s T P).tasks T).fFlags = 0 ∧
      GrRenderTask.isClosed (GrRenderTask.create s T P) T = false ∧
      ((GrRenderTask.create (GrRenderTask.create s T P) T2 P).proxies P).fLastRenderTask
        = some T2 := by
  have hl : ∀ (s0 : Heap) (t : TaskPtr),
      ((GrRenderTask.create s0 t P).proxies P).fLastRenderTask = some t := by
    intro s0 t
    rw [create_lastRenderTask, if_pos rfl]
  refine ⟨hl s T, ?_, ?_, ?_, ?_, ?_, ?_, hl _ T2⟩
  · rw [create_tasks_self]
  · rw [create_tasks_self]
  · rw [create_tasks_self]
  · rw [create_tasks_self]
  · rw [create_tasks_self]
  · unfold GrRenderTask.isClosed
    rw [create_tasks_self]
    simp

/-- C19. Destruction clears the back-reference only if it is still current: when a task `T`
with target `P` is destroyed, the last writer of `P` becomes null if it was `T`, and stays
what it was if it was another task or null; no other proxy and no task object is written. -/
theorem destroy_clears_current_last_writer (s : Heap) (T : TaskPtr) (P : ProxyPtr)
    (hT : (s.tasks T).fTarget = some P) :
    ((s.proxies P).fLastRenderTask = some T →
      ((GrRenderTask.destroy s T).proxies P).fLastRenderTask = none) ∧
    ((s.proxies P).fLastRenderTask ≠ some T →
      ((GrRenderTask.destroy s T).proxies P).fLastRenderTask =
        (s.proxies P).fLastRenderTask) ∧
    (∀ Q, Q ≠ P → (GrRenderTask.destroy s T).proxies Q = s.proxies Q) ∧
    (GrRenderTask.destroy s T).tasks = s.tasks := by
  refine ⟨?_, ?_, ?_, destroy_tasks s T⟩
  · intro h
    exact destroy_lastRenderTask_current hT h
  · intro h
    rw [destroy_not_current hT h]
  · intro Q hQ
    exact destroy_proxies_other hT Q hQ

/-- Witness of C19, in `Heap.twoWriters` (task 1, then task 2, constructed on proxy 10):
destroying the older task 1 leaves task 2 as last writer; destroying task 2 clears it. -/
theorem destroy_clears_current_last_writer_witness :
    (Heap.twoWriters.proxies 10).fLastRenderTask = some 2 ∧
      ((GrRenderTask.destroy Heap.twoWriters 1).proxies 10).fLastRenderTask =
        (Heap.twoWriters.proxies 10).fLastRenderTask ∧
      ((GrRenderTask.destroy Heap.twoWriters 2).proxies 10).fLastRenderTask = none :=
  ⟨by decide,
    (destroy_clears_current_last_writer Heap.twoWriters 1 10 (by decide)).2.1 (by decide),
    (destroy_clears_current_last_writer Heap.twoWriters 2 10 (by decide)).1 (by decide)⟩

/-- C20. No dangling last writer: after every sequence of constructions (at addresses not
in use) and destructions (of tasks alive), starting with no task alive and no last writer
set, the last writer of every proxy is null or a task that is alive and whose target is that
proxy. -/
theorem no_dangling_last_writer (w : World) (hw : Lifetimes w) (P : ProxyPtr) (T : TaskPtr)
    (h : (w.heap.proxies P).fLastRenderTask = some T) :
    w.live T = true ∧ (w.heap.tasks T).fTarget = some P := by
  induction hw generalizing P T with
  | start w hp _ =>
    rw [hp P] at h
    cases h
  | construct w t0 p0 _ hfree ih =>
    unfold World.construct at h ⊢
    dsimp only at h ⊢
    rw [create_lastRenderTask] at h
    by_cases hP : P = p0
    · rw [if_pos hP] at h
      injection h with h
      subst h
      subst hP
      rw [create_tasks_self]
      simp
    · rw [if_neg hP] at h
      obtain ⟨hlive, htarget⟩ := ih P T h
      have hne : T ≠ t0 := by
        intro e
        rw [e, hfree] at hlive
        cases hlive
      rw [create_tasks_other _ _ _ _ hne]
      simp [hne, hlive, htarget]
  | destruct w t0 _ _ ih =>
    unfold World.destruct at h ⊢
    dsimp only at h ⊢
    obtain ⟨hold, hne⟩ := destroy_lastRenderTask_some h
    obtain ⟨hlive, htarget⟩ := ih P T hold
    rw [destroy_tasks]
    have hT : T ≠ t0 := by
      intro e
      subst e
      exact hne htarget rfl
    simp [hT, hlive, htarget]

/-- Witness of C20: in `World.oneGone` the last writer of proxy 10 is task 2. -/
theorem no_dangling_last_writer_witness :
    (World.oneGone.heap.proxies 10).fLastRenderTask = some 2 ∧
      World.oneGone.live 2 = true ∧ (World.oneGone.heap.tasks 2).fTarget = some 10 :=
  have h0 : Lifetimes World.fresh := Lifetimes.start _ (fun _ => rfl) (fun _ => rfl)
  have h1 := Lifetimes.construct _ 1 10 h0 (by decide)
  have h2 := Lifetimes.construct _ 2 10 h1 (by decide)
  have h3 := Lifetimes.construct _ 3 30 h2 (by decide)
  have h4 : Lifetimes World.oneGone := Lifetimes.destruct _ 1 h3 (by decide)
  ⟨by decide, no_dangling_last_writer World.oneGone h4 10 2 (by decide)⟩

/-! ### Flush ordering (C21) -/

theorem ready_iff (s : Heap) (pending : List TaskPtr) (x : TaskPtr) :
    FlushScheduler.ready s pending x = true ↔
      ∀ y ∈ (s.tasks x).fDependencies, y ∉ pending := by
  simp [FlushScheduler.ready, List.all_eq_true]

/-- Whatever the scheduler loop returns is what was submitted before, followed by the
pending tasks in an order in which every task comes after its pending dependencies. -/
theorem flushLoop_sound (s : Heap) (rounds : Nat) (pending submitted order : List TaskPtr)
    (h : FlushScheduler.loop s rounds pending submitted = some order) :
    ∃ l, order = submitted ++ l ∧ l.Perm pending ∧
      ∀ before x after, l = before ++ x :: after →
        ∀ y ∈ (s.tasks x).fDependencies, y ∈ pending → y ∈ before := by
  induction rounds generalizing pending submitted with
  | zero =>
    cases pending with
    | nil =>
      simp only [FlushScheduler.loop, Option.some.injEq] at h
      refine ⟨[], by simp [h], List.Perm.refl _, ?_⟩
      intro before x after e
      simp at e
    | cons x rest => simp [FlushScheduler.loop] at h
  | succ n ih =>
    cases pending with
    | nil =>
      simp only [FlushScheduler.loop, Option.some.injEq] at h
      refine ⟨[], by simp [h], List.Perm.refl _, ?_⟩
      intro before x after e
      simp at e
    | cons x rest =>
      rw [FlushScheduler.loop] at h
      cases hf : (x :: rest).find? (FlushScheduler.ready s (x :: rest)) with
      | none =>
        rw [hf] at h
        simp at h
      | some y =>
        rw [hf] at h
        simp only at h
        have hy : y ∈ x :: rest := List.mem_of_find?_eq_some hf
        have hr := (ready_iff s (x :: rest) y).1 (List.find?_some hf)
        obtain ⟨l, e, hp, hord⟩ := ih _ _ h
        refine ⟨y :: l, by rw [e]; simp, ?_, ?_⟩
        · exact (List.Perm.cons y hp).trans (List.perm_cons_erase hy).symm
        · intro before z after ez d hd hdp
          cases before with
          | nil =>
            simp only [List.nil_append, List.cons.injEq] at ez
            rw [← ez.1] at hd
            exact absurd hdp (hr d hd)
          | cons b before1 =>
            simp only [List.cons_append, List.cons.injEq] at ez
            obtain ⟨eb, el⟩ := ez
            by_cases hdy : d = y
            · rw [hdy, eb]
              exact List.mem_cons_self _ _
            · have hde : d ∈ (x :: rest).erase y := (List.mem_erase_of_ne hdy).2 hdp
              exact List.mem_cons_of_mem _ (hord before1 z after el d hd hde)

theorem exists_min_rank (rank : TaskPtr → Nat) (l : List TaskPtr) (h : l ≠ []) :
    ∃ x ∈ l, ∀ y ∈ l, rank x ≤ rank y := by
  induction l with
  | nil => exact absurd rfl h
  | cons a rest ih =>
    cases rest with
    | nil =>
      refine ⟨a, List.mem_cons_self _ _, ?_⟩
      intro y hy
      simp at hy
      rw [hy]
    | cons b rest1 =>
      obtain ⟨m, hm, hmin⟩ := ih (by simp)
      by_cases hle : rank a ≤ rank m
      · refine ⟨a, List.mem_cons_self _ _, ?_⟩
        intro y hy
        rcases List.mem_cons.1 hy with e | hy1
        · rw [e]
        · exact Nat.le_trans hle (hmin y hy1)
      · refine ⟨m, List.mem_cons_of_mem _ hm, ?_⟩
        intro y hy
        rcases List.mem_cons.1 hy with e | hy1
        · rw [e]; omega
        · exact hmin y hy1

/-- With one round for each pending task, the scheduler loop returns a sequence whenever
the dependencies among the pending tasks go down along a rank (there is no cycle). -/
theorem flushLoop_complete (s : Heap) (rank : TaskPtr → Nat) (rounds : Nat)
    (pending submitted : List TaskPtr) (hlen : pending.length ≤ rounds)
    (hrank : ∀ x ∈ pending, ∀ y ∈ pending, Edge s x y → rank y < rank x) :
    (FlushScheduler.loop s rounds pending submitted).isSome = true := by
  induction rounds generalizing pending submitted with
  | zero =>
    cases pending with
    | nil => simp [FlushScheduler.loop]
    | cons x rest => simp at hlen
  | succ n ih =>
    cases pending with
    | nil => simp [FlushScheduler.loop]
    | cons x rest =>
      rw [FlushScheduler.loop]
      obtain ⟨m, hm, hmin⟩ := exists_min_rank rank (x :: rest) (by simp)
      have hready : FlushScheduler.ready s (x :: rest) m = true := by
        rw [ready_iff]
        intro y hy hyp
        have h1 := hrank m hm y hyp hy
        have h2 := hmin y hyp
        omega
      cases hf : (x :: rest).find? (FlushScheduler.ready s (x :: rest)) with
      | none =>
        have := List.find?_eq_none.1 hf m hm
        exact absurd hready this
      | some y =>
        simp only
        have hy : y ∈ x :: rest := List.mem_of_find?_eq_some hf
        apply ih
        · rw [List.length_erase_of_mem hy]
          simp at hlen ⊢
          omega
        · intro a ha b hb
          exact hrank a (List.mem_of_mem_erase ha) b (List.mem_of_mem_erase hb)

theorem flushOrder_sound {s : Heap} {tasks order : List TaskPtr}
    (h : FlushScheduler.order s tasks = some order) :
    order.Perm tasks ∧
      ∀ before x after, order = before ++ x :: after →
        ∀ y, Edge s x y → y ∈ tasks → y ∈ before := by
  obtain ⟨l, e, hp, hord⟩ := flushLoop_sound s _ _ _ _ h
  rw [List.nil_append] at e
  subst e
  exact ⟨hp, fun before x after e y hy hyt => hord before x after e y hy hyt⟩

/-- C21. Flush ordering, for the scheduler as the specification describes it: every
submission sequence it produces holds each task of the flush once, and for every dependency
edge X -> Y between tasks of the flush, Y is submitted before X; so for edges A -> B -> C
the sequence has C before B and B before A.  The scheduler does produce a sequence whenever
the dependencies among the tasks of the flush go down along a rank (there is no cycle). -/
theorem flush_order_respects_dependencies (s : Heap) (tasks : List TaskPtr) :
    (∀ order, FlushScheduler.order s tasks = some order →
      order.Perm tasks ∧
      (∀ before X after, order = before ++ X :: after →
        ∀ Y, Edge s X Y → Y ∈ tasks → Y ∈ before) ∧
      (∀ A B C, A ∈ tasks → B ∈ tasks → C ∈ tasks → Edge s A B → Edge s B C →
        ∃ l1 l2 l3 l4, order = l1 ++ C :: l2 ++ B :: l3 ++ A :: l4)) ∧
    (∀ rank : TaskPtr → Nat,
      (∀ x ∈ tasks, ∀ y ∈ tasks, Edge s x y → rank y < rank x) →
      (FlushScheduler.order s tasks).isSome = true) := by
  constructor
  · intro order h
    obtain ⟨hp, hord⟩ := flushOrder_sound h
    refine ⟨hp, hord, ?_⟩
    intro A B C hA hB hC hAB hBC
    obtain ⟨before, after, e⟩ := List.append_of_mem (hp.mem_iff.2 hA)
    have hBb : B ∈ before := hord before A after e B hAB hB
    obtain ⟨b1, b2, eb⟩ := List.append_of_mem hBb
    have e2 : order = b1 ++ B :: (b2 ++ A :: after) := by
      rw [e, eb]; simp
    have hCb : C ∈ b1 := hord b1 B _ e2 C hBC hC
    obtain ⟨c1, c2, ec⟩ := List.append_of_mem hCb
    refine ⟨c1, c2, b2, after, ?_⟩
    rw [e, eb, ec]
  · intro rank hrank
    exact flushLoop_complete s rank _ tasks [] (Nat.le_refl _) hrank

/-- Witness of C21: the heap `Heap.line` with the edges 0 -> 1 -> 2; the tasks are
submitted in the order 2, 1, 0. -/
theorem flush_order_respects_dependencies_witness :
    FlushScheduler.order Heap.line [0, 1, 2] = some [2, 1, 0] ∧
      (∃ l1 l2 l3 l4, [2, 1, 0] = l1 ++ 2 :: l2 ++ 1 :: l3 ++ 0 :: l4) ∧
      (FlushScheduler.order Heap.line [0, 1, 2]).isSome = true :=
  ⟨by decide,
    ((flush_order_respects_dependencies Heap.line [0, 1, 2]).1 [2, 1, 0] (by decide)).2.2
      0 1 2 (by decide) (by decide) (by decide) (by unfold Edge; decide) (by unfold Edge; decide),
    (flush_order_respects_dependencies Heap.line [0, 1, 2]).2 (fun t => 2 - t)
      (by unfold Edge; decide)⟩

/-! ### Inverse lists, frame of a new edge, self-edges (C22 to C24) -/

theorem reachable_ring : Reachable Heap.ring :=
  Reachable.task _ _ 0 1 (Reachable.task _ _ 2 0
    (Reachable.task Heap.fresh _ 1 2 reachable_fresh rfl) rfl) rfl

/-- C22. Dependents is the inverse of dependencies: in every heap reached from tasks with
empty lists by task-based and proxy-based `addDependency` calls that returned, for all tasks
`X` and `Y`, `Y` occurs in the dependency list of `X` exactly as often as `X` occurs in the
dependents list of `Y`; so `validate()` passes for every task, and `Y` is a dependency of
`X` exactly when `X` is a dependent of `Y`. -/
theorem dependents_inverse_of_dependencies (s : Heap) (hs : Reachable s) (X Y : TaskPtr) :
    List.count Y (s.tasks X).fDependencies = List.count X (s.tasks Y).fDependents ∧
      GrRenderTask.validate s X = true ∧
      (Y ∈ (s.tasks X).fDependencies ↔ X ∈ (s.tasks Y).fDependents) := by
  have h := reachable_inverse hs X Y
  refine ⟨h, reachable_validate hs X, ?_⟩
  rw [← List.count_pos_iff, ← List.count_pos_iff (a := X), h]

/-- Witness of C22: tasks 0 and 1 of the reachable heap `Heap.ring`. -/
theorem dependents_inverse_of_dependencies_witness :
    List.count 1 (Heap.ring.tasks 0).fDependencies =
        List.count 0 (Heap.ring.tasks 1).fDependents ∧
      GrRenderTask.validate Heap.ring 0 = true ∧
      (1 ∈ (Heap.ring.tasks 0).fDependencies ↔ 0 ∈ (Heap.ring.tasks 1).fDependents) :=
  dependents_inverse_of_dependencies Heap.ring reachable_ring 0 1

theorem link_fTarget (s : Heap) (a b x : TaskPtr) :
    ((GrRenderTask.addDependency.link s a b).tasks x).fTarget = (s.tasks x).fTarget := by
  simp only [GrRenderTask.addDependency.link, GrRenderTask.addDependent, setTask_tasks]
  by_cases hb : x = b <;> by_cases ha : x = a
  · subst hb; subst ha; simp
  · subst hb; simp [ha]
  · subst ha; simp [hb]
  · simp [ha, hb]

theorem link_fUniqueID (s : Heap) (a b x : TaskPtr) :
    ((GrRenderTask.addDependency.link s a b).tasks x).fUniqueID = (s.tasks x).fUniqueID := by
  simp only [GrRenderTask.addDependency.link, GrRenderTask.addDependent, setTask_tasks]
  by_cases hb : x = b <;> by_cases ha : x = a
  · subst hb; subst ha; simp
  · subst hb; simp [ha]
  · subst ha; simp [hb]
  · simp [ha, hb]

theorem link_nextID (s : Heap) (a b : TaskPtr) :
    (GrRenderTask.addDependency.link s a b).nextID = s.nextID := rfl

/-- C23. Side effects of a task-based `A.addDependency(B)` that returned and found no edge
to `B` yet: the dependency list of `A` is its old value with `B` appended at the end, the
dependents list of `B` is its old value with `A` appended at the end, and nothing else
changes: no other dependency list, no other dependents list (so, for distinct `A` and `B`,
not the dependents of `A` nor the dependencies of `B`), no flags, no deferred-proxy list, no
target, no identifier, no proxy (so no last-writer pointer), and not the identifier
counter. -/
theorem addDependency_new_edge_side_effects (s s1 : Heap) (A B : TaskPtr)
    (h : GrRenderTask.addDependency s A B = Outcome.done s1)
    (hnew : GrRenderTask.dependsOn s A B = false) :
    (s1.tasks A).fDependencies = (s.tasks A).fDependencies ++ [B] ∧
      (s1.tasks B).fDependents = (s.tasks B).fDependents ++ [A] ∧
      (∀ x, x ≠ A → (s1.tasks x).fDependencies = (s.tasks x).fDependencies) ∧
      (∀ x, x ≠ B → (s1.tasks x).fDependents = (s.tasks x).fDependents) ∧
      (∀ x, (s1.tasks x).fFlags = (s.tasks x).fFlags ∧
        (s1.tasks x).fDeferredProxies = (s.tasks x).fDeferredProxies ∧
        (s1.tasks x).fTarget = (s.tasks x).fTarget ∧
        (s1.tasks x).fUniqueID = (s.tasks x).fUniqueID) ∧
      s1.proxies = s.proxies ∧ s1.nextID = s.nextID := by
  have hn : B ∉ (s.tasks A).fDependencies := (findLoop_false_iff B _).1 hnew
  rcases addDependency_done h with ⟨_, h2, _⟩ | ⟨_, _, e⟩
  · exact absurd h2 hn
  · subst e
    refine ⟨?_, ?_, ?_, ?_, ?_, rfl, rfl⟩
    · rw [link_fDependencies, if_pos rfl]
    · rw [link_fDependents, if_pos rfl]
    · intro x hx
      rw [link_fDependencies, if_neg hx]
    · intro x hx
      rw [link_fDependents, if_neg hx]
    · intro x
      exact ⟨link_fFlags s A B x, link_fDeferredProxies s A B x, link_fTarget s A B x,
        link_fUniqueID s A B x⟩

/-- Witness of C23: `task 0 -> addDependency(task 1)` on the fresh heap. -/
theorem addDependency_new_edge_side_effects_witness :
    (Heap.zeroOnOne.tasks 0).fDependencies = (Heap.fresh.tasks 0).fDependencies ++ [1] ∧
      (Heap.zeroOnOne.tasks 1).fDependents = (Heap.fresh.tasks 1).fDependents ++ [0] ∧
      (∀ x, x ≠ 0 → (Heap.zeroOnOne.tasks x).fDependencies = (Heap.fresh.tasks x).fDependencies) ∧
      (∀ x, x ≠ 1 → (Heap.zeroOnOne.tasks x).fDependents = (Heap.fresh.tasks x).fDependents) ∧
      (∀ x, (Heap.zeroOnOne.tasks x).fFlags = (Heap.fresh.tasks x).fFlags ∧
        (Heap.zeroOnOne.tasks x).fDeferredProxies = (Heap.fresh.tasks x).fDeferredProxies ∧
        (Heap.zeroOnOne.tasks x).fTarget = (Heap.fresh.tasks x).fTarget ∧
        (Heap.zeroOnOne.tasks x).fUniqueID = (Heap.fresh.tasks x).fUniqueID) ∧
      Heap.zeroOnOne.proxies = Heap.fresh.proxies ∧ Heap.zeroOnOne.nextID = Heap.fresh.nextID :=
  addDependency_new_edge_side_effects Heap.fresh Heap.zeroOnOne 0 1 rfl (by decide)

/-- C24, the code at the failing input.  On the fresh heap the task-based call
`task 0 -> addDependency(task 0)` passes the cycle guard and returns; in the heap reached,
task 0 is in its own dependency list and in its own dependents list.  The proxy-based
overload, asked by task 0 for its own target, leaves both lists empty. -/
theorem task_based_self_dependency :
    GrRenderTask.addDependency Heap.fresh 0 0 = Outcome.done Heap.selfEdge ∧
      Reachable Heap.selfEdge ∧
      (Heap.selfEdge.tasks 0).fDependencies = [0] ∧
      (Heap.selfEdge.tasks 0).fDependents = [0] ∧
      ((GrRenderTask.addDependencyProxy (GrRenderTask.create Heap.fresh 0 10) 0 10 ()).heap.tasks
        0).fDependencies = [] ∧
      ((GrRenderTask.addDependencyProxy (GrRenderTask.create Heap.fresh 0 10) 0 10 ()).heap.tasks
        0).fDependents = [] :=
  ⟨rfl, Reachable.task Heap.fresh _ 0 0 reachable_fresh rfl, by decide, by decide, by decide,
    by decide⟩

/-! ### Closure is monotonic (C25) -/

theorem isClosed_of_fFlags {s s1 : Heap} {x : TaskPtr}
    (h : (s1.tasks x).fFlags = (s.tasks x).fFlags) :
    GrRenderTask.isClosed s1 x = GrRenderTask.isClosed s x := by
  unfold GrRenderTask.isClosed
  rw [h]

/-- The task-based `addDependency` writes no flags, whether it returns or faults. -/
theorem addDependency_heap_fFlags (s : Heap) (a b x : TaskPtr) :
    ((GrRenderTask.addDependency s a b).heap.tasks x).fFlags = (s.tasks x).fFlags := by
  unfold GrRenderTask.addDependency
  split
  · rfl
  · split
    · rfl
    · dsimp only
      split
      · exact link_fFlags s a b x
      · exact link_fFlags s a b x

/-- A closed task is closed in the heap that the conversion step leaves, whether the step
returns or faults. -/
theorem convert_heap_isClosed (s : Heap) (t : TaskPtr) (p : ProxyPtr) (c : GrCaps)
    (x : TaskPtr) (h : GrRenderTask.isClosed s x = true) :
    GrRenderTask.isClosed (GrRenderTask.addDependencyProxy.convert s t p c).heap x = true := by
  unfold GrRenderTask.addDependencyProxy.convert
  cases (s.proxies p).fLastRenderTask with
  | none => exact h
  | some w =>
    dsimp only
    split
    · exact h
    · split
      · exact h
      · have hf := addDependency_heap_fFlags s t w x
        cases ha : GrRenderTask.addDependency s t w with
        | done s2 =>
          rw [ha] at hf
          dsimp only [Outcome.heap] at hf ⊢
          exact isClosed_makeClosed_mono s2 w c x ((isClosed_of_fFlags hf).trans h)
        | fault s2 =>
          rw [ha] at hf
          dsimp only [Outcome.heap] at hf ⊢
          exact (isClosed_of_fFlags hf).trans h

theorem addDependencyProxy_heap (s : Heap) (t : TaskPtr) (p : ProxyPtr) (c : GrCaps) :
    (GrRenderTask.addDependencyProxy s t p c).heap =
        (GrRenderTask.addDependencyProxy.convert s t p c).heap ∨
      (GrRenderTask.addDependencyProxy s t p c).heap =
        GrRenderTask.addDependencyProxy.record
          (GrRenderTask.addDependencyProxy.convert s t p c).heap t p := by
  unfold GrRenderTask.addDependencyProxy
  cases GrRenderTask.addDependencyProxy.convert s t p c with
  | done s0 => exact Or.inr rfl
  | fault s0 => exact Or.inl rfl

/-- C25. Closure is monotonic: for every task that is closed before a task-based
`addDependency`, a proxy-based `addDependency` or a `closeThoseWhoDependOnMe`, by whatever
task and with whatever arguments, the task is closed in the heap the call leaves, whether the
call returns or faults.  (`prepare` and `isInstantiated` are embedded as functions that
return the calls made and the answer given; they write no heap.) -/
theorem closure_is_monotonic (s : Heap) (x : TaskPtr)
    (h : GrRenderTask.isClosed s x = true) :
    (∀ A B, GrRenderTask.isClosed (GrRenderTask.addDependency s A B).heap x = true) ∧
    (∀ T P caps, GrRenderTask.isClosed (GrRenderTask.addDependencyProxy s T P caps).heap x
      = true) ∧
    (∀ T caps, GrRenderTask.isClosed (GrRenderTask.closeThoseWhoDependOnMe s T caps) x
      = true) := by
  refine ⟨?_, ?_, ?_⟩
  · intro A B
    exact (isClosed_of_fFlags (addDependency_heap_fFlags s A B x)).trans h
  · intro T P caps
    have hc := convert_heap_isClosed s T P caps x h
    rcases addDependencyProxy_heap s T P caps with e | e
    · rw [e]; exact hc
    · rw [e, isClosed_record]; exact hc
  · intro T caps
    rw [closeThoseWhoDependOnMe_eq]
    exact closeEach_isClosed_mono caps _ s x h

/-- Witness of C25: the closed task 1 of `Heap.readOnce`, under a task-based call, a
proxy-based call that faults, and a `closeThoseWhoDependOnMe`. -/
theorem closure_is_monotonic_witness :
    GrRenderTask.isClosed (GrRenderTask.addDependency Heap.readOnce 1 3).heap 1 = true ∧
      GrRenderTask.isClosed (GrRenderTask.addDependencyProxy Heap.readOnce 1 20 ()).heap 1
        = true ∧
      GrRenderTask.isClosed (GrRenderTask.closeThoseWhoDependOnMe Heap.readOnce 1 ()) 1
        = true :=
  ⟨(closure_is_monotonic Heap.readOnce 1 (by decide)).1 1 3,
    (closure_is_monotonic Heap.readOnce 1 (by decide)).2.1 1 20 (),
    (closure_is_monotonic Heap.readOnce 1 (by decide)).2.2 1 ()⟩

/-! ### A proxy with no last writer, and a repeated read (C26, C27) -/

/-- The recording step leaves the heap as it is or appends the proxy to the deferred-proxy
list of the calling task. -/
theorem record_cases (s : Heap) (t : TaskPtr) (p : ProxyPtr) :
    GrRenderTask.addDependencyProxy.record s t p = s ∨
      GrRenderTask.addDependencyProxy.record s t p =
        s.setTask t
          { s.tasks t with fDeferredProxies := (s.tasks t).fDeferredProxies ++ [p] } := by
  unfold GrRenderTask.addDependencyProxy.record
  split
  · exact Or.inl rfl
  · split
    · exact Or.inr rfl
    · exact Or.inl rfl

theorem record_proxies (s : Heap) (t : TaskPtr) (p : ProxyPtr) :
    (GrRenderTask.addDependencyProxy.record s t p).proxies = s.proxies := by
  rcases record_cases s t p with e | e
  · rw [e]
  · rw [e]
    rfl

theorem record_nextID (s : Heap) (t : TaskPtr) (p : ProxyPtr) :
    (GrRenderTask.addDependencyProxy.record s t p).nextID = s.nextID := by
  rcases record_cases s t p with e | e
  · rw [e]
  · rw [e]
    rfl

theorem record_tasks_other (s : Heap) (t : TaskPtr) (p : ProxyPtr) (x : TaskPtr)
    (hx : x ≠ t) : (GrRenderTask.addDependencyProxy.record s t p).tasks x = s.tasks x := by
  rcases record_cases s t p with e | e
  · rw [e]
  · rw [e, setTask_tasks, if_neg hx]

theorem record_fTarget (s : Heap) (t : TaskPtr) (p : ProxyPtr) (x : TaskPtr) :
    ((GrRenderTask.addDependencyProxy.record s t p).tasks x).fTarget = (s.tasks x).fTarget := by
  rcases record_cases s t p with e | e
  · rw [e]
  · rw [e, setTask_tasks]
    by_cases hx : x = t
    · subst hx; simp
    · simp [hx]

theorem record_fUniqueID (s : Heap) (t : TaskPtr) (p : ProxyPtr) (x : TaskPtr) :
    ((GrRenderTask.addDependencyProxy.record s t p).tasks x).fUniqueID =
      (s.tasks x).fUniqueID := by
  rcases record_cases s t p with e | e
  · rw [e]
  · rw [e, setTask_tasks]
    by_cases hx : x = t
    · subst hx; simp
    · simp [hx]

theorem record_fDeferredProxies_cases (s : Heap) (t : TaskPtr) (p : ProxyPtr) :
    ((GrRenderTask.addDependencyProxy.record s t p).tasks t).fDeferredProxies =
        (s.tasks t).fDeferredProxies ∨
      ((GrRenderTask.addDependencyProxy.record s t p).tasks t).fDeferredProxies =
        (s.tasks t).fDeferredProxies ++ [p] := by
  rcases record_cases s t p with e | e
  · rw [e]; exact Or.inl rfl
  · rw [e, setTask_tasks, if_pos rfl]; exact Or.inr rfl

/-- C26. A proxy with no last writer: for every task `T`, open or closed, and every proxy
`P` whose last writer is null, `T.addDependency(P, caps)` returns; it changes no dependency
list, no dependents list, no flags (so it closes no task), no target, no identifier and no
proxy; the only change it can make is the append of `P` to the deferred-proxy list of `T`. -/
theorem addDependencyProxy_no_last_writer (s : Heap) (T : TaskPtr) (P : ProxyPtr)
    (caps : GrCaps) (hw : (s.proxies P).fLastRenderTask = none) :
    ∃ s1, GrRenderTask.addDependencyProxy s T P caps = Outcome.done s1 ∧
      (∀ x, (s1.tasks x).fDependencies = (s.tasks x).fDependencies ∧
        (s1.tasks x).fDependents = (s.tasks x).fDependents ∧
        (s1.tasks x).fFlags = (s.tasks x).fFlags ∧
        (s1.tasks x).fTarget = (s.tasks x).fTarget ∧
        (s1.tasks x).fUniqueID = (s.tasks x).fUniqueID) ∧
      (∀ x, x ≠ T → s1.tasks x = s.tasks x) ∧
      ((s1.tasks T).fDeferredProxies = (s.tasks T).fDeferredProxies ∨
        (s1.tasks T).fDeferredProxies = (s.tasks T).fDeferredProxies ++ [P]) ∧
      s1.proxies = s.proxies ∧ s1.nextID = s.nextID := by
  refine ⟨_, addDependencyProxy_of_convert (convert_no_writer T caps hw), ?_, ?_, ?_, ?_, ?_⟩
  · intro x
    exact ⟨record_fDependencies s T P x, record_fDependents s T P x, record_fFlags s T P x,
      record_fTarget s T P x, record_fUniqueID s T P x⟩
  · intro x hx
    exact record_tasks_other s T P x hx
  · exact record_fDeferredProxies_cases s T P
  · exact record_proxies s T P
  · exact record_nextID s T P

/-- Witness of C26: the closed task 1 of `Heap.readOnce` reads proxy 99, which no task has
written. -/
theorem addDependencyProxy_no_last_writer_witness :
    GrRenderTask.isClosed Heap.readOnce 1 = true ∧
    ∃ s1, GrRenderTask.addDependencyProxy Heap.readOnce 1 99 () = Outcome.done s1 ∧
      (∀ x, (s1.tasks x).fDependencies = (Heap.readOnce.tasks x).fDependencies ∧
        (s1.tasks x).fDependents = (Heap.readOnce.tasks x).fDependents ∧
        (s1.tasks x).fFlags = (Heap.readOnce.tasks x).fFlags ∧
        (s1.tasks x).fTarget = (Heap.readOnce.tasks x).fTarget ∧
        (s1.tasks x).fUniqueID = (Heap.readOnce.tasks x).fUniqueID) ∧
      (∀ x, x ≠ 1 → s1.tasks x = Heap.readOnce.tasks x) ∧
      ((s1.tasks 1).fDeferredProxies = (Heap.readOnce.tasks 1).fDeferredProxies ∨
        (s1.tasks 1).fDeferredProxies = (Heap.readOnce.tasks 1).fDeferredProxies ++ [99]) ∧
      s1.proxies = Heap.readOnce.proxies ∧ s1.nextID = Heap.readOnce.nextID :=
  ⟨by decide, addDependencyProxy_no_last_writer Heap.readOnce 1 99 () (by decide)⟩

/-- C27. Repeated proxy read: for every open task `T2` that already depends on `T1`, where
`T1` is the last writer of `P`, `T1` is not `T2`, and `T1` does not depend on `T2` (as in
every reachable heap, where no two distinct tasks depend on each other):
`T2.addDependency(P, caps)` returns, adds no second edge (no dependency list and no
dependents list changes), and `T1` is closed afterwards, whether or not it was closed
before. -/
theorem addDependencyProxy_repeated_read (s : Heap) (T1 T2 : TaskPtr) (P : ProxyPtr)
    (caps : GrCaps) (hopen : GrRenderTask.isClosed s T2 = false)
    (hdep : GrRenderTask.dependsOn s T2 T1 = true)
    (hw : (s.proxies P).fLastRenderTask = some T1) (hne : T1 ≠ T2)
    (hback : GrRenderTask.dependsOn s T1 T2 = false) :
    ∃ s1, GrRenderTask.addDependencyProxy s T2 P caps = Outcome.done s1 ∧
      (∀ x, (s1.tasks x).fDependencies = (s.tasks x).fDependencies ∧
        (s1.tasks x).fDependents = (s.tasks x).fDependents) ∧
      GrRenderTask.isClosed s1 T1 = true := by
  have ha : GrRenderTask.addDependency s T2 T1 = Outcome.done s :=
    addDependency_old ((findLoop_false_iff T2 _).1 hback) ((dependsOn_iff s T2 T1).1 hdep)
  refine ⟨_, addDependencyProxy_of_convert (convert_other caps hopen hw hne ha), ?_, ?_⟩
  · intro x
    constructor
    · rw [record_fDependencies, makeClosed_fDependencies]
    · rw [record_fDependents, makeClosed_fDependents]
  · rw [isClosed_record]
    exact isClosed_makeClosed s T1 caps

/-- Witness of C27: in `Heap.readOnce` task 2 depends on task 1, the last writer of proxy
10, and reads proxy 10 again. -/
theorem addDependencyProxy_repeated_read_witness :
    ∃ s1, GrRenderTask.addDependencyProxy Heap.readOnce 2 10 () = Outcome.done s1 ∧
      (∀ x, (s1.tasks x).fDependencies = (Heap.readOnce.tasks x).fDependencies ∧
        (s1.tasks x).fDependents = (Heap.readOnce.tasks x).fDependents) ∧
      GrRenderTask.isClosed s1 1 = true :=
  addDependencyProxy_repeated_read Heap.readOnce 1 2 10 () (by decide) (by decide)
    (by decide) (by decide) (by decide)

/-! ### The frame of `closeThoseWhoDependOnMe` (C28) -/

theorem makeClosed_tasks_cases (s : Heap) (t : TaskPtr) (c : GrCaps) (x : TaskPtr) :
    (GrRenderTask.makeClosed s t c).tasks x = s.tasks x ∨
      (GrRenderTask.isClosed s x = false ∧ x = t ∧
        (GrRenderTask.makeClosed s t c).tasks x =
          { s.tasks x with fFlags := (s.tasks x).fFlags ||| kClosed_Flag }) := by
  by_cases hx : x = t
  · subst hx
    by_cases hc : GrRenderTask.isClosed s x = true
    · exact Or.inl (by rw [makeClosed_of_closed s x c hc])
    · right
      refine ⟨by simpa using hc, rfl, ?_⟩
      unfold GrRenderTask.makeClosed
      rw [if_neg hc, setTask_tasks, if_pos rfl]
  · exact Or.inl (makeClosed_tasks_other s t c x hx)

theorem closeRound_tasks_other (s : Heap) (d : TaskPtr) (c : GrCaps) (x : TaskPtr)
    (hx : x ≠ d) :
    (if GrRenderTask.isClosed s d then s else GrRenderTask.makeClosed s d c).tasks x =
      s.tasks x := by
  split
  · rfl
  · exact makeClosed_tasks_other s d c x hx

theorem closeRound_tasks_closed (s : Heap) (d : TaskPtr) (c : GrCaps) (x : TaskPtr)
    (h : GrRenderTask.isClosed s x = true) :
    (if GrRenderTask.isClosed s d then s else GrRenderTask.makeClosed s d c).tasks x =
      s.tasks x := by
  by_cases hx : x = d
  · subst hx
    rw [if_pos h]
  · exact closeRound_tasks_other s d c x hx

theorem closeRound_proxies (s : Heap) (d : TaskPtr) (c : GrCaps) :
    (if GrRenderTask.isClosed s d then s else GrRenderTask.makeClosed s d c).proxies =
      s.proxies := by
  split
  · rfl
  · exact makeClosed_proxies s d c

theorem closeEach_tasks_not_mem (c : GrCaps) (l : List TaskPtr) (s : Heap) (x : TaskPtr)
    (h : x ∉ l) : (closeEach c l s).tasks x = s.tasks x := by
  induction l generalizing s with
  | nil => rfl
  | cons d rest ih =>
    unfold closeEach
    rw [ih _ (fun hm => h (List.mem_cons_of_mem _ hm))]
    exact closeRound_tasks_other s d c x (fun e => h (by rw [e]; exact List.mem_cons_self _ _))

theorem closeEach_tasks_closed (c : GrCaps) (l : List TaskPtr) (s : Heap) (x : TaskPtr)
    (h : GrRenderTask.isClosed s x = true) : (closeEach c l s).tasks x = s.tasks x := by
  induction l generalizing s with
  | nil => rfl
  | cons d rest ih =>
    unfold closeEach
    rw [ih _ (closeRound_isClosed_mono s d c x h)]
    exact closeRound_tasks_closed s d c x h

theorem closeEach_proxies (c : GrCaps) (l : List TaskPtr) (s : Heap) :
    (closeEach c l s).proxies = s.proxies := by
  induction l generalizing s with
  | nil => rfl
  | cons d rest ih =>
    unfold closeEach
    rw [ih, closeRound_proxies]

/-- Every task object is, after the rounds, what it was, or what it was with the closed
flag set. -/
theorem closeEach_tasks_cases (c : GrCaps) (l : List TaskPtr) (s : Heap) (x : TaskPtr) :
    (closeEach c l s).tasks x = s.tasks x ∨
      (closeEach c l s).tasks x =
        { s.tasks x with fFlags := (s.tasks x).fFlags ||| kClosed_Flag } := by
  induction l generalizing s with
  | nil => exact Or.inl rfl
  | cons d rest ih =>
    unfold closeEach
    by_cases hc : GrRenderTask.isClosed s d = true
    · rw [if_pos hc]
      exact ih s
    · rw [if_neg hc]
      rcases makeClosed_tasks_cases s d c x with e | ⟨_, hxd, e⟩
      · rw [← e]
        exact ih _
      · right
        subst hxd
        rw [closeEach_tasks_closed c rest _ x (isClosed_makeClosed s x c), e]

/-- The traced loop leaves the heap of the loop itself, and calls `makeClosed` only on
dependents that were open when the loop was entered. -/
theorem closeTraced_spec (this : TaskPtr) (c : GrCaps) (rounds i : Nat) (s : Heap)
    (calls : List TaskPtr) :
    (GrRenderTask.closeThoseWhoDependOnMe.traced this c rounds i s calls).1 =
        GrRenderTask.closeThoseWhoDependOnMe.loop this c rounds i s ∧
      ∀ d ∈ (GrRenderTask.closeThoseWhoDependOnMe.traced this c rounds i s calls).2,
        d ∈ calls ∨ (GrRenderTask.isClosed s d = false ∧ d ∈ (s.tasks this).fDependents) := by
  induction rounds generalizing i s calls with
  | zero =>
    unfold GrRenderTask.closeThoseWhoDependOnMe.traced GrRenderTask.closeThoseWhoDependOnMe.loop
    exact ⟨rfl, fun d hd => Or.inl hd⟩
  | succ n ih =>
    unfold GrRenderTask.closeThoseWhoDependOnMe.traced GrRenderTask.closeThoseWhoDependOnMe.loop
    cases hd : (s.tasks this).fDependents[i]? with
    | none => exact ⟨rfl, fun d hd => Or.inl hd⟩
    | some d0 =>
      have hmem : d0 ∈ (s.tasks this).fDependents := by
        obtain ⟨hlt, hget⟩ := List.getElem?_eq_some_iff.1 hd
        rw [← hget]
        exact List.getElem_mem _
      dsimp only
      by_cases hc : GrRenderTask.isClosed s d0 = true
      · rw [if_pos hc, if_pos hc]
        exact ih (i + 1) s calls
      · rw [if_neg hc, if_neg hc]
        obtain ⟨h1, h2⟩ := ih (i + 1) (GrRenderTask.makeClosed s d0 c) (calls ++ [d0])
        refine ⟨h1, ?_⟩
        intro d hdm
        rcases h2 d hdm with hcalls | ⟨hopen, hdep⟩
        · rcases List.mem_append.1 hcalls with h3 | h3
          · exact Or.inl h3
          · right
            simp at h3
            subst h3
            exact ⟨by simpa using hc, hmem⟩
        · right
          rw [makeClosed_fDependents] at hdep
          refine ⟨?_, hdep⟩
          cases hs : GrRenderTask.isClosed s d with
          | false => rfl
          | true =>
            rw [isClosed_makeClosed_mono s d0 c d hs] at hopen
            cases hopen

/-- C28. `closeThoseWhoDependOnMe` touches only open dependents: it calls `makeClosed` only
on tasks of the caller's dependents list that are not closed; every task object is
afterwards what it was, or what it was with the closed flag set, so no dependency list, no
dependents list and no deferred-proxy list changes; every task that is not in the caller's
dependents list, and every task that was closed, is left as it was; no proxy is written. -/
theorem closeThoseWhoDependOnMe_frame (s : Heap) (T : TaskPtr) (caps : GrCaps) :
    (∀ d ∈ GrRenderTask.closeThoseWhoDependOnMe.makeClosedCalls s T caps,
      GrRenderTask.isClosed s d = false ∧ d ∈ (s.tasks T).fDependents) ∧
    (∀ x, ((GrRenderTask.closeThoseWhoDependOnMe s T caps).tasks x).fDependencies =
        (s.tasks x).fDependencies ∧
      ((GrRenderTask.closeThoseWhoDependOnMe s T caps).tasks x).fDependents =
        (s.tasks x).fDependents ∧
      ((GrRenderTask.closeThoseWhoDependOnMe s T caps).tasks x).fDeferredProxies =
        (s.tasks x).fDeferredProxies ∧
      ((GrRenderTask.closeThoseWhoDependOnMe s T caps).tasks x = s.tasks x ∨
        (GrRenderTask.closeThoseWhoDependOnMe s T caps).tasks x =
          { s.tasks x with fFlags := (s.tasks x).fFlags ||| kClosed_Flag })) ∧
    (∀ x, x ∉ (s.tasks T).fDependents →
      (GrRenderTask.closeThoseWhoDependOnMe s T caps).tasks x = s.tasks x) ∧
    (∀ x, GrRenderTask.isClosed s x = true →
      (GrRenderTask.closeThoseWhoDependOnMe s T caps).tasks x = s.tasks x) ∧
    (GrRenderTask.closeThoseWhoDependOnMe s T caps).proxies = s.proxies := by
  refine ⟨?_, ?_, ?_, ?_, ?_⟩
  · intro d hd
    unfold GrRenderTask.closeThoseWhoDependOnMe.makeClosedCalls at hd
    rcases (closeTraced_spec T caps _ 0 s []).2 d hd with h | h
    · simp at h
    · exact h
  · intro x
    rw [closeThoseWhoDependOnMe_eq]
    have hc := closeEach_tasks_cases caps (s.tasks T).fDependents s x
    refine ⟨?_, ?_, ?_, hc⟩
    · rcases hc with e | e <;> rw [e]
    · rcases hc with e | e <;> rw [e]
    · rcases hc with e | e <;> rw [e]
  · intro x hx
    rw [closeThoseWhoDependOnMe_eq]
    exact closeEach_tasks_not_mem caps _ s x hx
  · intro x hx
    rw [closeThoseWhoDependOnMe_eq]
    exact closeEach_tasks_closed caps _ s x hx
  · rw [closeThoseWhoDependOnMe_eq]
    exact closeEach_proxies caps _ s

/-- Witness of C28: in `Heap.readOnce`, task 1 (closed, not its own dependent) closes its
dependents: `makeClosed` is called on the open task 2 only, and tasks 1 and 3 are left as
they were. -/
theorem closeThoseWhoDependOnMe_frame_witness :
    GrRenderTask.closeThoseWhoDependOnMe.makeClosedCalls Heap.readOnce 1 () = [2] ∧
      (GrRenderTask.isClosed Heap.readOnce 2 = false ∧
        2 ∈ (Heap.readOnce.tasks 1).fDependents) ∧
      (GrRenderTask.closeThoseWhoDependOnMe Heap.readOnce 1 ()).tasks 3 =
        Heap.readOnce.tasks 3 ∧
      (GrRenderTask.closeThoseWhoDependOnMe Heap.readOnce 1 ()).tasks 1 =
        Heap.readOnce.tasks 1 :=
  ⟨by decide,
    (closeThoseWhoDependOnMe_frame Heap.readOnce 1 ()).1 2 (by decide),
    (closeThoseWhoDependOnMe_frame Heap.readOnce 1 ()).2.2.1 3 (by decide),
    (closeThoseWhoDependOnMe_frame Heap.readOnce 1 ()).2.2.2.1 1 (by decide)⟩

/-! ### Repeated deferred reads, and `dependsOn` (C29, C30) -/

theorem addDependencyProxy_proxies {s s1 : Heap} {t : TaskPtr} {p : ProxyPtr} {c : GrCaps}
    (h : GrRenderTask.addDependencyProxy s t p c = Outcome.done s1) :
    s1.proxies = s.proxies := by
  obtain ⟨s0, hc, e⟩ := addDependencyProxy_done h
  rw [e, record_proxies]
  exact (convert_frame hc).1

theorem addDependencyProxy_appends_deferred {s s1 : Heap} {t : TaskPtr} {p : ProxyPtr}
    {c : GrCaps} {tp : GrTextureProxy}
    (h : GrRenderTask.addDependencyProxy s t p c = Outcome.done s1)
    (htp : (s.proxies p).asTextureProxy = some tp) (hd : tp.isDeferred = true) :
    (s1.tasks t).fDeferredProxies = (s.tasks t).fDeferredProxies ++ [p] := by
  obtain ⟨s0, hc, e⟩ := addDependencyProxy_done h
  obtain ⟨hp, hdef⟩ := convert_frame hc
  rw [e, record_fDeferredProxies_deferred t (by rw [hp]; exact htp) hd, hdef]

theorem times_appends_deferred (t : TaskPtr) (p : ProxyPtr) (c : GrCaps) (tp : GrTextureProxy)
    (hd : tp.isDeferred = true) (n : Nat) (s s1 : Heap)
    (h : GrRenderTask.addDependencyProxy.times t p c n s = Outcome.done s1)
    (htp : (s.proxies p).asTextureProxy = some tp) :
    (s1.tasks t).fDeferredProxies = (s.tasks t).fDeferredProxies ++ List.replicate n p := by
  induction n generalizing s with
  | zero =>
    simp only [GrRenderTask.addDependencyProxy.times, Outcome.done.injEq] at h
    rw [← h]
    simp
  | succ n ih =>
    rw [GrRenderTask.addDependencyProxy.times] at h
    cases ha : GrRenderTask.addDependencyProxy s t p c with
    | fault s2 =>
      rw [ha] at h
      simp at h
    | done s2 =>
      rw [ha] at h
      dsimp only at h
      have hp := addDependencyProxy_proxies ha
      rw [ih s2 h (by rw [hp]; exact htp), addDependencyProxy_appends_deferred ha htp hd,
        List.append_assoc]
      rfl

theorem prepare_count_scheduleUpload (s : Heap) (t : TaskPtr) (p : ProxyPtr) :
    List.count (PrepareCall.scheduleUpload p) (GrRenderTask.prepare s t) =
      List.count p (s.tasks t).fDeferredProxies := by
  unfold GrRenderTask.prepare
  rw [prepare_loop_eq, List.nil_append, List.count_append,
    List.count_map_of_injective _ _ scheduleUpload_injective]
  simp

/-- C29. The deferred-proxy list is not de-duplicated: for every task `T` and every deferred
texture proxy `P`, after `n` calls `T.addDependency(P, caps)` in a row that all returned,
the deferred-proxy list of `T` is its old value followed by `n` copies of `P`: `P` occurs
`n` more times, the length has grown by one for each call, and `prepare` then schedules the
upload of `P` once for each occurrence. -/
theorem deferred_list_not_deduplicated (s s1 : Heap) (T : TaskPtr) (P : ProxyPtr)
    (caps : GrCaps) (n : Nat) (tp : GrTextureProxy)
    (htp : (s.proxies P).asTextureProxy = some tp) (hd : tp.isDeferred = true)
    (h : GrRenderTask.addDependencyProxy.times T P caps n s = Outcome.done s1) :
    (s1.tasks T).fDeferredProxies = (s.tasks T).fDeferredProxies ++ List.replicate n P ∧
      List.count P (s1.tasks T).fDeferredProxies =
        List.count P (s.tasks T).fDeferredProxies + n ∧
      (s1.tasks T).fDeferredProxies.length = (s.tasks T).fDeferredProxies.length + n ∧
      List.count (PrepareCall.scheduleUpload P) (GrRenderTask.prepare s1 T) =
        List.count P (s.tasks T).fDeferredProxies + n := by
  have e := times_appends_deferred T P caps tp hd n s s1 h htp
  have hc : List.count P (s1.tasks T).fDeferredProxies =
      List.count P (s.tasks T).fDeferredProxies + n := by
    rw [e, List.count_append, List.count_replicate_self]
  refine ⟨e, hc, ?_, ?_⟩
  · rw [e, List.length_append, List.length_replicate]
  · rw [prepare_count_scheduleUpload, hc]

/-- Witness of C29: task 3 of `Heap.textures` reads the deferred texture proxy 40 twice. -/
theorem deferred_list_not_deduplicated_witness :
    ((GrRenderTask.addDependencyProxy.times 3 40 () 2 Heap.textures).heap.tasks
        3).fDeferredProxies = (Heap.textures.tasks 3).fDeferredProxies ++ List.replicate 2 40 ∧
      List.count 40 ((GrRenderTask.addDependencyProxy.times 3 40 () 2 Heap.textures).heap.tasks
        3).fDeferredProxies = List.count 40 (Heap.textures.tasks 3).fDeferredProxies + 2 ∧
      ((GrRenderTask.addDependencyProxy.times 3 40 () 2 Heap.textures).heap.tasks
        3).fDeferredProxies.length = (Heap.textures.tasks 3).fDeferredProxies.length + 2 ∧
      List.count (PrepareCall.scheduleUpload 40)
        (GrRenderTask.prepare (GrRenderTask.addDependencyProxy.times 3 40 () 2 Heap.textures).heap
          3) = List.count 40 (Heap.textures.tasks 3).fDeferredProxies + 2 :=
  deferred_list_not_deduplicated Heap.textures _ 3 40 () 2 { isDeferred := true }
    (by decide) rfl rfl

/-- C30. `dependsOn` is direct membership, not reachability: for all tasks `A` and `X`,
`A.dependsOn(X)` is true exactly when `X` is an element of the dependency list of `A`; in
particular, when `A` depends on `B` and `B` on `C` but `C` is not in the list of `A`,
`A.dependsOn(C)` is false.  `dependsOn` returns a truth value and no heap: it writes
nothing. -/
theorem dependsOn_direct_membership (s : Heap) (A X B C : TaskPtr) :
    (GrRenderTask.dependsOn s A X = true ↔ X ∈ (s.tasks A).fDependencies) ∧
    (B ∈ (s.tasks A).fDependencies → C ∈ (s.tasks B).fDependencies →
      C ∉ (s.tasks A).fDependencies →
      DependsTransitively s A C ∧ GrRenderTask.dependsOn s A C = false) := by
  refine ⟨dependsOn_iff s A X, ?_⟩
  intro hAB hBC hAC
  refine ⟨Relation.TransGen.tail (Relation.TransGen.single hAB) hBC, ?_⟩
  exact (findLoop_false_iff C _).2 hAC

/-- Witness of C30: in `Heap.line` (edges 0 -> 1 -> 2) task 0 reaches task 2, and
`task 0 -> dependsOn(task 2)` is false. -/
theorem dependsOn_direct_membership_witness :
    DependsTransitively Heap.line 0 2 ∧ GrRenderTask.dependsOn Heap.line 0 2 = false :=
  (dependsOn_direct_membership Heap.line 0 0 1 2).2 (by decide) (by decide) (by decide)

end Skia
